import Mathlib

/-!
# Storefront bot (`src/index.js`): shallow embedding and verified properties

The program is an Express admin panel plus a Discord bot over a Prisma store.
The embedding keeps the three tables and the in-memory `CONFIG` object in an
explicit `World`, passes it through every handler, and returns the calls made
to the chat platform as a list of `Action`s.  Results that come from outside
the program (whether a message could be sent, who owns the application, which
messages arrive in a collector window) are arguments of the handlers.

Conventions:
* JavaScript strings are `String`; `null`/`undefined` strings are `Option String`.
* JavaScript numbers are `JsNum`: finite values are exact rationals, so the
  rounding of binary64 is not represented.
* Store calls succeed unless the data cannot be stored in the column
  (see `JsNum.toInt?`, `JsNum.toFinite?`) or the row to update is missing.
-/

namespace Storefront

/-! ## JavaScript values -/

/-- A JavaScript number: `NaN`, an infinity, or a finite value. -/
inductive JsNum where
  | nan
  | inf (negative : Bool)
  | fin (q : ℚ)
deriving DecidableEq

/-- Truthiness of a number: `NaN` and `0` are falsy. -/
def JsNum.truthy : JsNum → Bool
  | .nan => false
  | .inf _ => true
  | .fin q => decide (q ≠ 0)

/-- The expression `a || b` on numbers. -/
def JsNum.orElse (a b : JsNum) : JsNum := if a.truthy then a else b

/-- Truthiness of a string: only the empty string is falsy. -/
def strTruthy (s : String) : Bool := decide (s ≠ "")

/-- Truthiness of a string-or-null/undefined value. -/
def truthy : Option String → Bool
  | none => false
  | some s => strTruthy s

/-- The expression `a || b` where `a` may be `null`/`undefined` and `b` is a string. -/
def orStr (a : Option String) (b : String) : String :=
  match a with
  | some s => if strTruthy s then s else b
  | none => b

/-- The string a template literal or `String(..)` inserts for a string-or-null value. -/
def strOf : Option String → String
  | some s => s
  | none => "null"

/-! ## Data model -/

/-- The in-memory `CONFIG` object (index.js lines 42-49). -/
structure Config where
  mainChannelId : Option String
  mainMessageId : Option String
  deliveryChannelId : Option String
  clientRoleId : Option String
  guildId : Option String
  isManagedExternally : Bool
deriving DecidableEq

/-- Modelled from the spec: the `StockItem` table, whose Prisma schema is not part of
the sources.  Spec section 3: id (unique slug), name, emoji, quantity (integer), price
(decimal), max (capacity hint). -/
structure StockItem where
  id : String
  name : String
  emoji : String
  quantity : Int
  price : ℚ
  max : Int
deriving DecidableEq

/-- Modelled from the spec: the columns of `DeliveryRecord` that the program writes
(the schema is not part of the sources; the generated key and timestamp are left out). -/
structure DeliveryRecord where
  mention : Option String
  itemId : String
  itemName : String
  quantity : Int
  photoUrl : Option String
  messageSent : Bool
  messageStatus : Nat
deriving DecidableEq

/-- The state the program reads and writes: `CONFIG` and the three tables. -/
structure World where
  CONFIG : Config
  configuration : Option Config
  stockItem : List StockItem
  deliveryRecord : List DeliveryRecord
deriving DecidableEq

/-! ## Store operations (Prisma calls used by the program) -/

/-- The number `2^1024 - 2^970`: the least magnitude that binary64 rounds to an infinity
(half an ulp above the largest finite number, the tie going to the even, infinite, side). -/
def overflowBound : Nat :=
  179769313486231580793728971405303415079934132710037826936173778980444968292764750946649017977587207096330286416692887910946555547851940402630657488671505820681908902000708383676273854845817711531764475730270069855571366959622842914819860834936475292719074168444365510704342711559699508093042880177904174497792

/-- Whether a finite value of the model is out of the range of binary64.  A number read by
`parseInt`, `parseFloat` or `Number` is kept as the exact value of its text; when it
overflows, the JavaScript number is an infinity, and the model treats it so wherever the
program observes the number. -/
def overflows (q : ℚ) : Bool := decide (overflowBound * q.den ≤ q.num.natAbs)

/-- The value an integer column stores for a number, if it can store it: the number has to be
a (finite) integer. -/
def JsNum.toInt? : JsNum → Option Int
  | .fin q => if q.den = 1 ∧ overflows q = false then some q.num else none
  | _ => none

/-- The value a decimal column stores for a number, if it can store it: the number has to be
finite. -/
def JsNum.toFinite? : JsNum → Option ℚ
  | .fin q => if overflows q = false then some q else none
  | _ => none

/-- The call `prisma.stockItem.findUnique({ where: { id } })`. -/
def findUnique (stock : List StockItem) (id : String) : Option StockItem :=
  stock.find? (fun it => decide (it.id = id))

/-- The call `prisma.stockItem.update({ where: { id }, data })`: `none` when no row has the id
(Prisma throws), otherwise the table with `f` applied to the rows with that id. -/
def update (stock : List StockItem) (id : String) (f : StockItem → StockItem) :
    Option (List StockItem) :=
  match findUnique stock id with
  | none => none
  | some _ => some (stock.map (fun it => if it.id = id then f it else it))

/-- The order of `orderBy: { name: 'asc' }`, taken as the lexicographic order of the
code points of the names. -/
def nameLe (a b : StockItem) : Prop := a.name.toList ≤ b.name.toList

instance : DecidableRel nameLe := fun a b => inferInstanceAs (Decidable (a.name.toList ≤ b.name.toList))

/-- The call `prisma.stockItem.findMany({ orderBy: { name: 'asc' } })`. -/
def findManyByName (stock : List StockItem) : List StockItem :=
  stock.insertionSort nameLe

/-! ## Messages and effects -/

/-- One field of an embed. -/
structure EmbedField where
  name : String
  value : String
  inline : Bool
deriving DecidableEq

/-- An embed as the program builds it. -/
structure Embed where
  title : String
  color : Nat
  thumbnail : Option String
  fields : List EmbedField
  description : Option String
  footer : String
deriving DecidableEq

/-- A button component. -/
structure Button where
  style : Nat
  label : String
  custom_id : String
deriving DecidableEq

/-- A message body handed to the chat platform. -/
structure MessageBody where
  content : Option String
  embeds : List Embed
  components : List (List Button)
deriving DecidableEq

/-- Calls made to the chat platform, in program order. -/
inductive Action where
  | send (channelId : String) (messageId : Option String) (body : MessageBody)
  | cacheSend (channelId : String) (content : String)
  | reply (content : String) (ephemeral : Bool)
  | deferReply (ephemeral : Bool)
  | editReply (content : String)
  | followUp (content : String) (ephemeral : Bool)
  | disableComponents
  | msgReply (content : String)
  | channelSend (content : String)
  | archiveAfter (ms : Nat) (reason : String)
  | deferUpdate
  | threadCreate (name : String) (autoArchiveDuration : Nat) (reason : String)
  | threadMembersAdd (userId : String)
  | threadSend (body : MessageBody)
deriving DecidableEq

/-- What happens inside one call of `sendMessageWithBot` (index.js lines 313-329). -/
inductive SendOutcome where
  | message (id : String)
  | notReady
  | noTextChannel
  | apiError (code : Nat)
deriving DecidableEq

/-- The value `sendMessageWithBot` returns: the message sent or edited, and `null` (`none`)
when the bot is not ready, the channel is missing or not text based, or the platform call
throws; the `catch` of lines 325-328 swallows every error, so the function never throws. -/
def sendMessageWithBot : SendOutcome → Option String
  | .message id => some id
  | _ => none

/-! ## createDelivery (index.js lines 671-726) -/

/-- The embed built by `createDelivery` (lines 683-694). -/
def deliveryEmbed (cfg : Config) (item : StockItem) (quantity : Int)
    (note photoUrl : Option String) : Embed :=
  { title := "📦 Entrega Confirmada"
    color := 3066993
    thumbnail := if truthy photoUrl then photoUrl else none
    fields :=
      [ { name := "Destinatário"
          value := if truthy cfg.clientRoleId then "<@&" ++ strOf cfg.clientRoleId ++ ">"
                   else "Não configurado"
          inline := true },
        { name := "Produto", value := item.emoji ++ " " ++ item.name, inline := true },
        { name := "Quantidade", value := toString quantity, inline := true } ]
    description := if truthy note then note else none
    footer := "DOLLYA STORE — Entrega" }

/-- The message body built by `createDelivery` (lines 697-702). -/
def deliveryBody (cfg : Config) (item : StockItem) (quantity : Int)
    (note photoUrl : Option String) : MessageBody :=
  { content := some (if truthy cfg.clientRoleId then "<@&" ++ strOf cfg.clientRoleId ++ ">"
                     else "Nova entrega registrada!")
    embeds := [deliveryEmbed cfg item quantity note photoUrl]
    components := [] }

/-- The feedback `bot.channels.cache.get(ch)?.send(text)` guarded by `if (ch)`. -/
def feedback (channelIdForFeedback : Option String) (text : String) : List Action :=
  if truthy channelIdForFeedback then [Action.cacheSend (strOf channelIdForFeedback) text] else []

/-- The function `createDelivery`.  `sent` is what `sendMessageWithBot` returns for the
delivery message: the id of the message, or `none` for `null`. -/
def createDelivery (w : World) (sent : Option String) (mention : Option String) (itemId : String)
    (quantity : Int) (note photoUrl channelIdForFeedback : Option String) :
    World × List Action :=
  if ¬ truthy w.CONFIG.deliveryChannelId then
    (w, feedback channelIdForFeedback "Erro: Canal de entregas não configurado.")
  else
    match findUnique w.stockItem itemId with
    | none => (w, feedback channelIdForFeedback "Erro: Item da entrega não encontrado.")
    | some item =>
      let body := deliveryBody w.CONFIG item quantity note photoUrl
      let acts := [Action.send (strOf w.CONFIG.deliveryChannelId) none body]
      let record : DeliveryRecord :=
        { mention := mention
          itemId := itemId
          itemName := item.name
          quantity := quantity
          photoUrl := photoUrl
          messageSent := sent.isSome
          messageStatus := if sent.isSome then 200 else 500 }
      let w1 := { w with deliveryRecord := w.deliveryRecord ++ [record] }
      match update w1.stockItem itemId (fun it => { it with quantity := it.quantity - quantity }) with
      | none => (w1, acts)
      | some stock => ({ w1 with stockItem := stock }, acts)

/-! ## Seed data and a sample state -/

/-- The second entry of `defaultStock` (line 99); its price 0.70 is written as a fraction. -/
def mangoItem : StockItem :=
  { id := "MANGO", name := "MANGO", emoji := "🥭", quantity := 260, price := mkRat 7 10,
    max := 300 }

/-- The constant `defaultStock` (index.js lines 97-102); the prices 0.50, 0.70, 0.40 and
7.50 are written as fractions. -/
def defaultStock : List StockItem :=
  [ { id := "TOMATRIO", name := "TOMATRIO", emoji := "🍅", quantity := 202, price := mkRat 1 2,
      max := 300 },
    mangoItem,
    { id := "MR_CARROT", name := "MR CARROT", emoji := "🥕", quantity := 74, price := mkRat 2 5,
      max := 150 },
    { id := "PLANTA", name := "PLANTA (100k ~ 500k DPS)", emoji := "🌱", quantity := 12,
      price := mkRat 15 2, max := 20 } ]

/-- The initial value of `CONFIG` (index.js lines 42-49). -/
def initialConfig : Config :=
  { mainChannelId := some "", mainMessageId := some "", deliveryChannelId := some "",
    clientRoleId := some "", guildId := some "", isManagedExternally := false }

/-- A state after seeding, with a delivery channel saved from the panel. -/
def seededWorld : World :=
  { CONFIG := { initialConfig with deliveryChannelId := some "900" }
    configuration := some { initialConfig with deliveryChannelId := some "900" }
    stockItem := defaultStock
    deliveryRecord := [] }

/-! ## The confirm-delivery interaction (index.js lines 589-647) -/

/-- The segments of a character list cut at every `sep`, as `String.prototype.split` cuts. -/
def splitChars (sep : Char) : List Char → List (List Char)
  | [] => [[]]
  | c :: cs =>
    if c = sep then [] :: splitChars sep cs
    else
      match splitChars sep cs with
      | [] => [[c]]
      | h :: t => (c :: h) :: t

/-- The call `s.split(sep)` for a one-character separator. -/
def jsSplit (s : String) (sep : Char) : List String :=
  (splitChars sep s.toList).map String.mk

/-- The call `s.startsWith(p)`. -/
def jsStartsWith (s p : String) : Bool := p.toList.isPrefixOf s.toList

/-- The `custom_id` built at ticket creation (line 579). -/
def confirmCustomId (itemId buyerId : String) : String :=
  "confirm_delivery_" ++ itemId ++ "_" ++ buyerId

/-- The destructuring `const [, itemId, buyerId] = customId.split('_')` (line 599):
the elements at index 1 and 2, `none` standing for `undefined`. -/
def decodeCustomId (customId : String) : Option String × Option String :=
  let parts := jsSplit customId '_'
  (parts[1]?, parts[2]?)

/-- The part of a button interaction the handler reads. -/
structure Interaction where
  customId : String
  userId : String
  channelId : String
deriving DecidableEq

/-- A message arriving in the ticket channel. -/
structure Message where
  authorId : String
  content : String
  attachments : List String
deriving DecidableEq

/-- The message collector created at lines 616-617, with what its callbacks close over. -/
structure Collector where
  ownerId : String
  itemId : String
  buyerId : Option String
  channelId : String
  time : Nat
  max : Nat
deriving DecidableEq

/-- What a handler leaves behind: the state, the calls made, and the collector it opened. -/
structure HandlerResult where
  world : World
  actions : List Action
  collector : Option Collector
deriving DecidableEq

/-- The branch condition at line 589 (for a button interaction). -/
def isConfirmDelivery (i : Interaction) : Bool := jsStartsWith i.customId "confirm_delivery_"

/-- The reply of the `catch` block (lines 660-667). -/
def genericError : String := "Ocorreu um erro ao processar sua solicitação."

/-- The confirm-delivery branch of the `interactionCreate` handler.  `owner` is the id of
`(await bot.application.fetch()).owner`, `none` when the owner is `null`: reading `owner.id`
then throws before any reply, and the `catch` block replies. -/
def confirmDelivery (w : World) (owner : Option String) (i : Interaction) : HandlerResult :=
  match owner with
  | none => { world := w, actions := [Action.reply genericError true], collector := none }
  | some ownerId =>
    if i.userId ≠ ownerId then
      { world := w
        actions := [Action.reply "Apenas o administrador pode confirmar a entrega." true]
        collector := none }
    else
      match decodeCustomId i.customId with
      | (some itemId, buyerId) =>
        match findUnique w.stockItem itemId with
        | none =>
          { world := w
            actions := [Action.deferReply true, Action.editReply "Erro: Item não encontrado."]
            collector := none }
        | some _ =>
          { world := w
            actions :=
              [ Action.deferReply true,
                Action.disableComponents,
                Action.editReply "Botão desativado. Processando...",
                Action.followUp ("Por favor, envie a foto de comprovação e/ou uma nota para a "
                  ++ "entrega (ex: \"entregue em mãos\"). Você tem 2 minutos.") true ]
            collector := some { ownerId := ownerId, itemId := itemId, buyerId := buyerId,
                                channelId := i.channelId, time := 120000, max := 1 } }
      | (none, _) =>
        { world := w
          actions := [Action.deferReply true, Action.followUp genericError true]
          collector := none }

/-- The note used when the window elapses (line 637). -/
def cannedNote : String := "Entrega confirmada pelo painel do ticket."

/-- The `collect` callback (lines 619-632). -/
def onCollect (w : World) (sent : Option String) (c : Collector) (msg : Message) :
    World × List Action :=
  let photoUrl := msg.attachments.head?
  let note := msg.content
  let r := createDelivery w sent c.buyerId c.itemId 1 (some note) photoUrl (some c.channelId)
  (r.1, r.2 ++
    [ Action.msgReply "✅ Entrega registrada com sucesso no canal de entregas!",
      Action.channelSend "Este ticket será fechado em 10 segundos.",
      Action.archiveAfter 10000 "Entrega confirmada e ticket finalizado." ])

/-- The `end` callback (lines 634-646). -/
def onEnd (w : World) (sent : Option String) (c : Collector) (reason : String) :
    World × List Action :=
  if reason = "time" then
    let r := createDelivery w sent c.buyerId c.itemId 1 (some cannedNote) none (some c.channelId)
    (r.1, r.2 ++
      [ Action.followUp "⏳ Tempo esgotado. A entrega foi registrada sem foto ou nota." true,
        Action.channelSend "Este ticket será fechado em 10 segundos.",
        Action.archiveAfter 10000 "Entrega confirmada e ticket finalizado." ])
  else (w, [])

/-- The collector's filter `m => m.author.id === owner.id` (line 616). -/
def collectorFilter (c : Collector) (m : Message) : Bool := decide (m.authorId = c.ownerId)

/-- What the message collector emits to the two listeners registered at lines 619 and 634:
`collect` with a message that passed the filter, and `end` with its reason (`time`, `limit`,
or another reason such as `channelDelete`). -/
inductive CollectorEvent where
  | collect (msg : Message)
  | ended (reason : String)
deriving DecidableEq

/-- The listener that runs for one emitted event, on the state and after the calls left by the
events before it.  `sent` is what `sendMessageWithBot` returns inside that run of
`createDelivery`.  The listeners keep no flag of their own: each emission runs its callback. -/
def handleEvent (c : Collector) (s : World × List Action) (e : Option String × CollectorEvent) :
    World × List Action :=
  match e.2 with
  | .collect msg =>
    let r := onCollect s.1 e.1 c msg
    (r.1, s.2 ++ r.2)
  | .ended reason =>
    let r := onEnd s.1 e.1 c reason
    (r.1, s.2 ++ r.2)

/-- The life of one collector: the events it emits, in order, each with the send outcome of
its callback.  Which events a collector created with `max: 1` emits is decided by discord.js,
not by the program, so the events are an argument. -/
def runCollector (w : World) (c : Collector) (events : List (Option String × CollectorEvent)) :
    World × List Action :=
  events.foldl (handleEvent c) (w, [])

/-- The state `w` with `CONFIG.deliveryChannelId` holding `''`, the value the program starts
with (line 45) and keeps until a delivery channel is saved. -/
def withoutDeliveryChannel (w : World) : World :=
  { w with CONFIG := { w.CONFIG with deliveryChannelId := some "" } }

/-! ## Number parsing and formatting (JavaScript built-ins used by the program) -/

/-- White space and line terminators of ECMAScript (the class `\s`, and what `parseInt` and
`parseFloat` skip at the start). -/
def isJsSpace (c : Char) : Bool :=
  let n := c.toNat
  n = 0x09 || n = 0x0A || n = 0x0B || n = 0x0C || n = 0x0D || n = 0x20 || n = 0xA0 ||
  n = 0x1680 || (0x2000 ≤ n && n ≤ 0x200A) || n = 0x2028 || n = 0x2029 || n = 0x202F ||
  n = 0x205F || n = 0x3000 || n = 0xFEFF

/-- The value of a list of decimal digits. -/
def digitsVal (ds : List Char) : Nat :=
  ds.foldl (fun acc d => 10 * acc + (d.toNat - '0'.toNat)) 0

/-- A leading sign: whether it is `-`, and the rest. -/
def takeSign : List Char → Bool × List Char
  | '-' :: r => (true, r)
  | '+' :: r => (false, r)
  | s => (false, s)

/-- The call `parseInt(s, 10)`: leading white space is skipped, a sign is read, then the
longest run of decimal digits; `NaN` when that run is empty. -/
def parseInt (s : String) : JsNum :=
  let (neg, r) := takeSign (s.toList.dropWhile isJsSpace)
  let ds := r.takeWhile Char.isDigit
  if ds = [] then JsNum.nan
  else JsNum.fin (if neg then -(digitsVal ds : Int) else (digitsVal ds : Int))

/-- The exponent part `e`/`E`, optional sign, digits; 0 when the text has no such part. -/
def exponentPart : List Char → Int
  | c :: r =>
    if c = 'e' ∨ c = 'E' then
      let (neg, r1) := takeSign r
      let ds := r1.takeWhile Char.isDigit
      if ds = [] then 0 else (if neg then -(digitsVal ds : Int) else (digitsVal ds : Int))
    else 0
  | [] => 0

/-- The call `parseFloat(s)`: leading white space is skipped and the longest prefix that is a
decimal literal is read (`Infinity`, or digits with an optional fraction and exponent); `NaN`
when there is none.  The value is exact, not rounded to binary64. -/
def parseFloat (s : String) : JsNum :=
  let (neg, r) := takeSign (s.toList.dropWhile isJsSpace)
  if "Infinity".toList.isPrefixOf r then JsNum.inf neg
  else
    let ip := r.takeWhile Char.isDigit
    let r1 := r.dropWhile Char.isDigit
    let fp := match r1 with
      | '.' :: r2 => r2.takeWhile Char.isDigit
      | _ => []
    let r3 := match r1 with
      | '.' :: r2 => r2.dropWhile Char.isDigit
      | _ => r1
    if ip = [] ∧ fp = [] then JsNum.nan
    else
      let e := exponentPart r3
      let m : Int := digitsVal (ip ++ fp)
      JsNum.fin (mkRat ((if neg then -m else m) * 10 ^ e.toNat) (10 ^ (fp.length + (-e).toNat)))

/-- Two decimal digits for a number below 100. -/
def twoDigits (n : Nat) : String := (if n < 10 then "0" else "") ++ toString n

/-- The call `x.toFixed(2)`: the sign, then the integer `n` nearest to `|x| * 100` (the larger
one on a tie) written with a point before its last two digits.  This is the text of Prisma's
Decimal, the column type line 181 names, for every value, and of a JavaScript number for
|x| < 10^21. -/
def toFixed2 (x : ℚ) : String :=
  let n := (200 * x.num.natAbs + x.den) / (2 * x.den)
  (if x < 0 then "-" else "") ++ toString (n / 100) ++ "." ++ twoDigits (n % 100)

/-! ## The price board (index.js lines 313-401) -/

/-- The field rendered for one item (lines 339-343). -/
def mainEmbedField (item : StockItem) : EmbedField :=
  { name := item.emoji ++ " " ++ item.name
    value := "**Preço:** R$" ++ toFixed2 item.price ++ "\n**Estoque:** " ++
      (if item.quantity > 0 then toString item.quantity else "ESGOTADO")
    inline := true }

/-- The body returned by `generateMainEmbed`, with its webhook-only keys. -/
structure MainEmbed where
  username : String
  avatar_url : String
  body : MessageBody
deriving DecidableEq

/-- The function `generateMainEmbed` (lines 331-360) on the stock table. -/
def generateMainEmbed (stock : List StockItem) : MainEmbed :=
  { username := "DOLLYA VS BRAINROTS [PREÇOS]"
    avatar_url := ""
    body :=
      { content := none
        embeds :=
          [ { title := "🧠 DOLLYA STORE | TABELA DE PREÇOS"
              color := 16753920
              thumbnail := none
              fields := (findManyByName stock).map mainEmbedField
              description := none
              footer := "🛒 DOLLYA STORE" } ]
        components := [[{ style := 3, label := "🛒 Comprar", custom_id := "buy_item_button" }]] } }

/-- The function `saveConfig` (lines 83-94): the upsert of row 1, skipped when the
configuration comes from the environment. -/
def saveConfig (w : World) : World :=
  if w.CONFIG.isManagedExternally then w else { w with configuration := some w.CONFIG }

/-- The function `updateMainEmbed` (lines 363-401).  `edited` and `created` are what
`sendMessageWithBot` returns for the edit and for the new message (a message id, or `none`
for `null`); `sendMessageWithBot` catches every error itself and never throws. -/
def updateMainEmbed (w : World) (edited created : Option String) :
    World × List Action × Option String :=
  if ¬ truthy w.CONFIG.mainChannelId then (w, [], none)
  else
    let body := (generateMainEmbed w.stockItem).body
    let ch := strOf w.CONFIG.mainChannelId
    let editActs :=
      if truthy w.CONFIG.mainMessageId then [Action.send ch w.CONFIG.mainMessageId body] else []
    let message := if truthy w.CONFIG.mainMessageId then edited else none
    match message with
    | some m => (w, editActs, some m)
    | none => (w, editActs ++ [Action.send ch none body], created)

/-! ## HTTP responses -/

/-- What a route handler answers. -/
inductive Response where
  | error (code : Nat) (message : String)
  | success (message : Option String) (stock : Option (List StockItem))
      (item : Option StockItem) (delivery : Option DeliveryRecord)
  | unanswered
deriving DecidableEq

/-! ## POST /update-stock (index.js lines 166-213) -/

/-- The object `dataToUpdate` (lines 175-183): a key is present when the body has it. -/
structure UpdateData where
  quantity : Option JsNum
  price : Option JsNum
deriving DecidableEq

/-- The object `dataToUpdate` built for one item (lines 173-183).  The body maps a key to the
string of its value, `none` for `undefined`. -/
def dataToUpdate (newStockData : String → Option String) (item : StockItem) : UpdateData :=
  let quantityKey := item.id ++ "_quantity"
  let priceKey := item.id ++ "_price"
  { quantity := (newStockData quantityKey).map parseInt
    price := (newStockData priceKey).map parseFloat }

/-- The list `updateOperations` (lines 171-190): one update per current item for which the
body has a quantity or a price key. -/
def updateOperations (newStockData : String → Option String) (currentStock : List StockItem) :
    List (String × UpdateData) :=
  currentStock.filterMap (fun item =>
    let d := dataToUpdate newStockData item
    if d.quantity.isSome ∨ d.price.isSome then some (item.id, d) else none)

/-- The write of a `quantity` key: nothing when the key is absent; `none` when the value is
not an integer (the column cannot store it). -/
def setQuantity? : Option JsNum → Option (StockItem → StockItem)
  | none => some (fun it => it)
  | some q => (q.toInt?).map (fun n it => { it with quantity := n })

/-- The write of a `price` key: nothing when the key is absent; `none` when the value is not
a finite number (the column cannot store it). -/
def setPrice? : Option JsNum → Option (StockItem → StockItem)
  | none => some (fun it => it)
  | some p => (p.toFinite?).map (fun x it => { it with price := x })

/-- The row change that `data` stands for; `none` when the store rejects the data. -/
def UpdateData.write? (d : UpdateData) : Option (StockItem → StockItem) :=
  match setQuantity? d.quantity, setPrice? d.price with
  | some f, some g => some (fun it => g (f it))
  | _, _ => none

/-- One `prisma.stockItem.update({ where: { id }, data })` of the batch: it fails when the
data is rejected or no row has the id. -/
def applyUpdate (stock : List StockItem) (op : String × UpdateData) : Option (List StockItem) :=
  match op.2.write? with
  | none => none
  | some f => update stock op.1 f

/-- The row an accepted batch leaves for `it`: the keys the body has for its id, written. -/
def applyData (newStockData : String → Option String) (it : StockItem) : StockItem :=
  match (dataToUpdate newStockData it).write? with
  | some f => f it
  | none => it

/-- Whether the store accepts the data the body holds for `it`. -/
def acceptable (newStockData : String → Option String) (it : StockItem) : Bool :=
  ((dataToUpdate newStockData it).write?).isSome

/-- The call `prisma.$transaction(ops)`: the updates run in order on a working copy; the copy
is committed when all succeed, and `none` (the transaction throws, the table stays as it was)
when one fails. -/
def transaction (ops : List (String × UpdateData)) (stock : List StockItem) :
    Option (List StockItem) :=
  ops.foldlM applyUpdate stock

/-- The price-board refresh after the commit (lines 195-205). -/
def refreshAfterUpdate (w : World) (edited created : Option String) : World × List Action :=
  if truthy w.CONFIG.mainChannelId then
    let r := updateMainEmbed w edited created
    match r.2.2 with
    | some messageId =>
      if ¬ truthy r.1.CONFIG.mainMessageId then
        (saveConfig { r.1 with CONFIG := { r.1.CONFIG with mainMessageId := some messageId } }, r.2.1)
      else (r.1, r.2.1)
    | none => (r.1, r.2.1)
  else (w, [])

/-- The handler of `POST /update-stock`. -/
def updateStock (w : World) (newStockData : String → Option String)
    (edited created : Option String) : World × List Action × Response :=
  match transaction (updateOperations newStockData w.stockItem) w.stockItem with
  | none => (w, [], Response.error 500 "Falha ao atualizar o estoque.")
  | some stock =>
    let r := refreshAfterUpdate { w with stockItem := stock } edited created
    (r.1, r.2, Response.success none (some (findManyByName r.1.stockItem)) none none)

/-- The first entry of `defaultStock` (line 98). -/
def tomatrioItem : StockItem :=
  { id := "TOMATRIO", name := "TOMATRIO", emoji := "🍅", quantity := 202, price := mkRat 1 2,
    max := 300 }

/-- A body with the price `1e400` for `TOMATRIO` and a quantity for `MANGO`. -/
def overflowKeys (v : String) : String → Option String :=
  fun k => if k = "TOMATRIO_price" then some "1e400"
    else if k = "MANGO_quantity" then some v else none

/-- A body with a valid price for `TOMATRIO` and a quantity for `MANGO`. -/
def twoKeys (v : String) : String → Option String :=
  fun k => if k = "TOMATRIO_price" then some "0.75"
    else if k = "MANGO_quantity" then some v else none

/-! ## GET /get-config and POST /save-config (index.js lines 119-133) -/

/-- The body of `POST /save-config`: for each key `none` when it is `undefined`, otherwise
its value (itself a string or `null`). -/
structure ConfigPayload where
  mainChannelId : Option (Option String)
  deliveryChannelId : Option (Option String)
  mainMessageId : Option (Option String)
  clientRoleId : Option (Option String)
  guildId : Option (Option String)
deriving DecidableEq

/-- The handler of `GET /get-config`. -/
def getConfig (w : World) : Config := w.CONFIG

/-- The assignment `if (v !== undefined) CONFIG.key = v`. -/
def assignIfDefined (v : Option (Option String)) (old : Option String) : Option String :=
  match v with
  | some x => x
  | none => old

/-- The handler of `POST /save-config`. -/
def saveConfigHandler (w : World) (p : ConfigPayload) : World × Response :=
  let c := w.CONFIG
  let c1 : Config :=
    { mainChannelId := assignIfDefined p.mainChannelId c.mainChannelId
      deliveryChannelId := assignIfDefined p.deliveryChannelId c.deliveryChannelId
      mainMessageId := assignIfDefined p.mainMessageId c.mainMessageId
      clientRoleId := assignIfDefined p.clientRoleId c.clientRoleId
      guildId := assignIfDefined p.guildId c.guildId
      isManagedExternally := c.isManagedExternally }
  (saveConfig { w with CONFIG := c1 },
   Response.success (some "Configurações salvas.") none none none)

/-! ## GET /get-stock and POST /add-fruit (index.js lines 136-163) -/

/-- The handler of `GET /get-stock`. -/
def getStock (w : World) : List StockItem := findManyByName w.stockItem

/-- The one-character upper-case mappings of Unicode 14.0.0 outside ASCII, as runs
`(first, last, step, shift)`: every `step`-th code point from `first` to `last` maps to itself
plus `shift`. -/
def upperRuns : List (Nat × Nat × Nat × Int) :=
  [
    (181, 181, 1, 743), (224, 246, 1, -32), (248, 254, 1, -32), (255, 255, 1, 121),
    (257, 303, 2, -1), (305, 305, 1, -232), (307, 311, 2, -1), (314, 328, 2, -1),
    (331, 375, 2, -1), (378, 382, 2, -1), (383, 383, 1, -300), (384, 384, 1, 195),
    (387, 389, 2, -1), (392, 392, 1, -1), (396, 396, 1, -1), (402, 402, 1, -1), (405, 405, 1, 97),
    (409, 409, 1, -1), (410, 410, 1, 163), (414, 414, 1, 130), (417, 421, 2, -1),
    (424, 424, 1, -1), (429, 429, 1, -1), (432, 432, 1, -1), (436, 438, 2, -1), (441, 441, 1, -1),
    (445, 445, 1, -1), (447, 447, 1, 56), (453, 453, 1, -1), (454, 454, 1, -2), (456, 456, 1, -1),
    (457, 457, 1, -2), (459, 459, 1, -1), (460, 460, 1, -2), (462, 476, 2, -1),
    (477, 477, 1, -79), (479, 495, 2, -1), (498, 498, 1, -1), (499, 499, 1, -2),
    (501, 501, 1, -1), (505, 543, 2, -1), (547, 563, 2, -1), (572, 572, 1, -1),
    (575, 576, 1, 10815), (578, 578, 1, -1), (583, 591, 2, -1), (592, 592, 1, 10783),
    (593, 593, 1, 10780), (594, 594, 1, 10782), (595, 595, 1, -210), (596, 596, 1, -206),
    (598, 599, 1, -205), (601, 601, 1, -202), (603, 603, 1, -203), (604, 604, 1, 42319),
    (608, 608, 1, -205), (609, 609, 1, 42315), (611, 611, 1, -207), (613, 613, 1, 42280),
    (614, 614, 1, 42308), (616, 616, 1, -209), (617, 617, 1, -211), (618, 618, 1, 42308),
    (619, 619, 1, 10743), (620, 620, 1, 42305), (623, 623, 1, -211), (625, 625, 1, 10749),
    (626, 626, 1, -213), (629, 629, 1, -214), (637, 637, 1, 10727), (640, 640, 1, -218),
    (642, 642, 1, 42307), (643, 643, 1, -218), (647, 647, 1, 42282), (648, 648, 1, -218),
    (649, 649, 1, -69), (650, 651, 1, -217), (652, 652, 1, -71), (658, 658, 1, -219),
    (669, 669, 1, 42261), (670, 670, 1, 42258), (837, 837, 1, 84), (881, 883, 2, -1),
    (887, 887, 1, -1), (891, 893, 1, 130), (940, 940, 1, -38), (941, 943, 1, -37),
    (945, 961, 1, -32), (962, 962, 1, -31), (963, 971, 1, -32), (972, 972, 1, -64),
    (973, 974, 1, -63), (976, 976, 1, -62), (977, 977, 1, -57), (981, 981, 1, -47),
    (982, 982, 1, -54), (983, 983, 1, -8), (985, 1007, 2, -1), (1008, 1008, 1, -86),
    (1009, 1009, 1, -80), (1010, 1010, 1, 7), (1011, 1011, 1, -116), (1013, 1013, 1, -96),
    (1016, 1016, 1, -1), (1019, 1019, 1, -1), (1072, 1103, 1, -32), (1104, 1119, 1, -80),
    (1121, 1153, 2, -1), (1163, 1215, 2, -1), (1218, 1230, 2, -1), (1231, 1231, 1, -15),
    (1233, 1327, 2, -1), (1377, 1414, 1, -48), (4304, 4346, 1, 3008), (4349, 4351, 1, 3008),
    (5112, 5117, 1, -8), (7296, 7296, 1, -6254), (7297, 7297, 1, -6253), (7298, 7298, 1, -6244),
    (7299, 7300, 1, -6242), (7301, 7301, 1, -6243), (7302, 7302, 1, -6236),
    (7303, 7303, 1, -6181), (7304, 7304, 1, 35266), (7545, 7545, 1, 35332), (7549, 7549, 1, 3814),
    (7566, 7566, 1, 35384), (7681, 7829, 2, -1), (7835, 7835, 1, -59), (7841, 7935, 2, -1),
    (7936, 7943, 1, 8), (7952, 7957, 1, 8), (7968, 7975, 1, 8), (7984, 7991, 1, 8),
    (8000, 8005, 1, 8), (8017, 8023, 2, 8), (8032, 8039, 1, 8), (8048, 8049, 1, 74),
    (8050, 8053, 1, 86), (8054, 8055, 1, 100), (8056, 8057, 1, 128), (8058, 8059, 1, 112),
    (8060, 8061, 1, 126), (8112, 8113, 1, 8), (8126, 8126, 1, -7205), (8144, 8145, 1, 8),
    (8160, 8161, 1, 8), (8165, 8165, 1, 7), (8526, 8526, 1, -28), (8560, 8575, 1, -16),
    (8580, 8580, 1, -1), (9424, 9449, 1, -26), (11312, 11359, 1, -48), (11361, 11361, 1, -1),
    (11365, 11365, 1, -10795), (11366, 11366, 1, -10792), (11368, 11372, 2, -1),
    (11379, 11379, 1, -1), (11382, 11382, 1, -1), (11393, 11491, 2, -1), (11500, 11502, 2, -1),
    (11507, 11507, 1, -1), (11520, 11557, 1, -7264), (11559, 11559, 1, -7264),
    (11565, 11565, 1, -7264), (42561, 42605, 2, -1), (42625, 42651, 2, -1), (42787, 42799, 2, -1),
    (42803, 42863, 2, -1), (42874, 42876, 2, -1), (42879, 42887, 2, -1), (42892, 42892, 1, -1),
    (42897, 42899, 2, -1), (42900, 42900, 1, 48), (42903, 42921, 2, -1), (42933, 42947, 2, -1),
    (42952, 42954, 2, -1), (42961, 42961, 1, -1), (42967, 42969, 2, -1), (42998, 42998, 1, -1),
    (43859, 43859, 1, -928), (43888, 43967, 1, -38864), (65345, 65370, 1, -32),
    (66600, 66639, 1, -40), (66776, 66811, 1, -40), (66967, 66977, 1, -39),
    (66979, 66993, 1, -39), (66995, 67001, 1, -39), (67003, 67004, 1, -39),
    (68800, 68850, 1, -64), (71872, 71903, 1, -32), (93792, 93823, 1, -32),
    (125218, 125251, 1, -34) ]

/-- The code points whose upper case is more than one character (Unicode 14.0.0, SpecialCasing),
with that upper case. -/
def upperSpecial : List (Nat × List Nat) :=
  [
    (223, [83, 83]), (329, [700, 78]), (496, [74, 780]), (912, [921, 776, 769]),
    (944, [933, 776, 769]), (1415, [1333, 1362]), (7830, [72, 817]), (7831, [84, 776]),
    (7832, [87, 778]), (7833, [89, 778]), (7834, [65, 702]), (8016, [933, 787]),
    (8018, [933, 787, 768]), (8020, [933, 787, 769]), (8022, [933, 787, 834]),
    (8064, [7944, 921]), (8065, [7945, 921]), (8066, [7946, 921]), (8067, [7947, 921]),
    (8068, [7948, 921]), (8069, [7949, 921]), (8070, [7950, 921]), (8071, [7951, 921]),
    (8072, [7944, 921]), (8073, [7945, 921]), (8074, [7946, 921]), (8075, [7947, 921]),
    (8076, [7948, 921]), (8077, [7949, 921]), (8078, [7950, 921]), (8079, [7951, 921]),
    (8080, [7976, 921]), (8081, [7977, 921]), (8082, [7978, 921]), (8083, [7979, 921]),
    (8084, [7980, 921]), (8085, [7981, 921]), (8086, [7982, 921]), (8087, [7983, 921]),
    (8088, [7976, 921]), (8089, [7977, 921]), (8090, [7978, 921]), (8091, [7979, 921]),
    (8092, [7980, 921]), (8093, [7981, 921]), (8094, [7982, 921]), (8095, [7983, 921]),
    (8096, [8040, 921]), (8097, [8041, 921]), (8098, [8042, 921]), (8099, [8043, 921]),
    (8100, [8044, 921]), (8101, [8045, 921]), (8102, [8046, 921]), (8103, [8047, 921]),
    (8104, [8040, 921]), (8105, [8041, 921]), (8106, [8042, 921]), (8107, [8043, 921]),
    (8108, [8044, 921]), (8109, [8045, 921]), (8110, [8046, 921]), (8111, [8047, 921]),
    (8114, [8122, 921]), (8115, [913, 921]), (8116, [902, 921]), (8118, [913, 834]),
    (8119, [913, 834, 921]), (8124, [913, 921]), (8130, [8138, 921]), (8131, [919, 921]),
    (8132, [905, 921]), (8134, [919, 834]), (8135, [919, 834, 921]), (8140, [919, 921]),
    (8146, [921, 776, 768]), (8147, [921, 776, 769]), (8150, [921, 834]), (8151, [921, 776, 834]),
    (8162, [933, 776, 768]), (8163, [933, 776, 769]), (8164, [929, 787]), (8166, [933, 834]),
    (8167, [933, 776, 834]), (8178, [8186, 921]), (8179, [937, 921]), (8180, [911, 921]),
    (8182, [937, 834]), (8183, [937, 834, 921]), (8188, [937, 921]), (64256, [70, 70]),
    (64257, [70, 73]), (64258, [70, 76]), (64259, [70, 70, 73]), (64260, [70, 70, 76]),
    (64261, [83, 84]), (64262, [83, 84]), (64275, [1348, 1350]), (64276, [1348, 1333]),
    (64277, [1348, 1339]), (64278, [1358, 1350]), (64279, [1348, 1341]) ]

/-- The upper case of one character: a-z for ASCII, otherwise the entry of `upperSpecial` or
of `upperRuns`, and the character itself when it has none. -/
def upperChar (c : Char) : List Char :=
  let n := c.toNat
  if n < 128 then [c.toUpper]
  else
    match upperSpecial.lookup n with
    | some l => l.map Char.ofNat
    | none =>
      match upperRuns.find? (fun r => r.1 ≤ n && n ≤ r.2.1 && (n - r.1) % r.2.2.1 == 0) with
      | some r => [Char.ofNat (n + r.2.2.2).toNat]
      | none => [c]

/-- The call `s.toUpperCase()`: every character is replaced by its upper case under the
default case conversion of Unicode, which has no context rule for upper case. -/
def toUpperCase (s : String) : String := String.mk (s.toList.flatMap upperChar)

/-- The replacement of every maximal run of white space by one underscore; `inRun` tells
that the character before was white space. -/
def replaceSpaceRuns (inRun : Bool) : List Char → List Char
  | [] => []
  | c :: cs =>
    if isJsSpace c then
      (if inRun then replaceSpaceRuns true cs else '_' :: replaceSpaceRuns true cs)
    else c :: replaceSpaceRuns false cs

/-- The expression `String(id).toUpperCase().replace(/\s+/g, '_')` (lines 146 and 152). -/
def normalizeId (id : String) : String :=
  String.mk (replaceSpaceRuns false (toUpperCase id).toList)

/-- The body of `POST /add-fruit`.  The text keys are `none` when absent; the numeric keys
hold `Number(value)` (`NaN` for an absent or non-numeric value). -/
structure AddRequest where
  id : Option String
  name : Option String
  emoji : Option String
  price : JsNum
  quantity : JsNum
  max : JsNum
deriving DecidableEq

/-- The object `newItemData` (lines 151-158), numbers not yet stored. -/
structure NewItemData where
  id : String
  name : String
  emoji : String
  price : JsNum
  quantity : JsNum
  max : JsNum
deriving DecidableEq

/-- The object `newItemData` for an id and a name. -/
def newItemData (id name : String) (req : AddRequest) : NewItemData :=
  { id := normalizeId id
    name := toUpperCase name
    emoji := orStr req.emoji ""
    price := req.price.orElse (JsNum.fin 0)
    quantity := req.quantity.orElse (JsNum.fin 0)
    max := req.max.orElse (req.quantity.orElse (JsNum.fin 100)) }

/-- The call `prisma.stockItem.create({ data })`: the row stored, `none` when a value cannot
be stored in its column (Prisma throws). -/
def createItem (d : NewItemData) : Option StockItem :=
  match d.price.toFinite?, d.quantity.toInt?, d.max.toInt? with
  | some p, some q, some m =>
    some { id := d.id, name := d.name, emoji := d.emoji, quantity := q, price := p, max := m }
  | _, _, _ => none

/-- The handler of `POST /add-fruit`.  It has no `try`: when `create` throws, no answer is
sent. -/
def addFruit (w : World) (req : AddRequest) : World × Response :=
  if ¬ truthy req.id ∨ ¬ truthy req.name then
    (w, Response.error 400 "id e name obrigatórios")
  else
    match req.id, req.name with
    | some id, some name =>
      match findUnique w.stockItem (normalizeId id) with
      | some _ => (w, Response.error 400 "ID já existe")
      | none =>
        match createItem (newItemData id name req) with
        | none => (w, Response.unanswered)
        | some item =>
          let w1 := { w with stockItem := w.stockItem ++ [item] }
          (w1, Response.success none (some (findManyByName w1.stockItem)) (some item) none)
    | _, _ => (w, Response.error 400 "id e name obrigatórios")

/-! ## POST /deliver (index.js lines 218-284) -/

/-- The body of `POST /deliver`.  The text fields are `none` when absent; `quantity` holds
`Number(req.body.quantity)`. -/
structure DeliverRequest where
  mention : Option String
  itemId : Option String
  quantity : JsNum
  note : Option String
deriving DecidableEq

/-- The test `/^\d{17,19}$/.test(content)` (line 253). -/
def isSnowflake (content : String) : Bool :=
  content.toList.all Char.isDigit && decide (17 ≤ content.length) && decide (content.length ≤ 19)

/-- The text `String(n)` of a number: exact for `NaN`, the infinities and the integers below
10^21; for a finite non-integer the model writes the fraction `num/den`, where JavaScript
writes a decimal expansion. -/
def numText : JsNum → String
  | .nan => "NaN"
  | .inf false => "Infinity"
  | .inf true => "-Infinity"
  | .fin q =>
    if overflows q then (if q < 0 then "-Infinity" else "Infinity")
    else if q.den = 1 then toString q.num else toString q.num ++ "/" ++ toString q.den

/-- The embed built by `POST /deliver` (lines 236-248). -/
def deliverEmbed (item : StockItem) (mention note photoUrl : Option String) (qty : JsNum) :
    Embed :=
  { title := "📦 Entrega Confirmada"
    color := 3066993
    thumbnail := if truthy photoUrl then photoUrl else none
    fields :=
      [ { name := "Destinatário", value := orStr mention "Não informado", inline := true },
        { name := "Produto", value := item.emoji ++ " " ++ item.name, inline := true },
        { name := "Quantidade", value := numText qty, inline := true },
        { name := "Preço Unit.", value := "R$" ++ toFixed2 item.price, inline := true } ]
    description := if truthy note then note else none
    footer := "DOLLYA STORE — Entrega" }

/-- The text of `String(err)` in the answer of the `catch` block (line 282); it comes from
the store library. -/
def storeErrorText : String := "PrismaClientValidationError"

/-- The handler of `POST /deliver`.  `file` is the stored name of the uploaded photo, if
any; `baseUrl` is `getServerBaseUrl(req)`; `sent` is what `sendMessageWithBot` returns.
When the log cannot store the quantity `create` throws and the `catch` block answers 500. -/
def deliver (w : World) (req : DeliverRequest) (file : Option String) (baseUrl : String)
    (sent : Option String) : World × List Action × Response :=
  if ¬ truthy w.CONFIG.deliveryChannelId then
    (w, [], Response.error 400 "Canal de entregas não configurado no painel.")
  else
    match req.itemId with
    | none => (w, [], Response.error 400 "itemId requerido")
    | some itemId =>
      if ¬ strTruthy itemId then (w, [], Response.error 400 "itemId requerido")
      else
        match findUnique w.stockItem itemId with
        | none => (w, [], Response.error 400 "item não encontrado")
        | some item =>
          let qty := req.quantity.orElse (JsNum.fin 1)
          let photoUrl := file.map (fun filename => baseUrl ++ "/uploads/" ++ filename)
          let content := orStr req.mention ""
          let content := if isSnowflake content then "<@" ++ content ++ ">" else content
          let body : MessageBody :=
            { content := some content
              embeds := [deliverEmbed item req.mention req.note photoUrl qty]
              components := [] }
          let acts := [Action.send (strOf w.CONFIG.deliveryChannelId) none body]
          match qty.toInt? with
          | none => (w, acts, Response.error 500 storeErrorText)
          | some n =>
            let deliveryRecord : DeliveryRecord :=
              { mention := if truthy req.mention then req.mention else none
                itemId := itemId
                itemName := item.name
                quantity := n
                photoUrl := photoUrl
                messageSent := sent.isSome
                messageStatus := if sent.isSome then 200 else 500 }
            ({ w with deliveryRecord := w.deliveryRecord ++ [deliveryRecord] }, acts,
             Response.success none none none (some deliveryRecord))

/-- A delivery of 3 `MANGO` entered in the panel. -/
def mangoDelivery : DeliverRequest :=
  { mention := some "42", itemId := some "MANGO", quantity := JsNum.fin 3, note := none }

/-! ## The edit failure paths of the price-board refresh (index.js lines 374-400) -/

/-- An awaited call as the code around it sees it: it returns a value or throws an error
carrying a `code`. -/
inductive Awaited (α : Type) where
  | returned (value : α)
  | threw (code : Nat)
deriving DecidableEq

/-- The awaited call `sendMessageWithBot(..)` of line 378: whatever happens inside, the
function returns (`null` on every failure, lines 314-317 and 325-328) and does not throw. -/
def awaitSendMessageWithBot (o : SendOutcome) : Awaited (Option String) :=
  Awaited.returned (sendMessageWithBot o)

/-- The function `updateMainEmbed` with its two `try` blocks written out, for an edit call
that may return or throw.  A throw with code 10008 or 50005 clears `CONFIG.mainMessageId` and
goes on to send a new message (lines 382-384); any other throw is thrown again (line 386),
caught by the outer `catch` (lines 398-400), logged, and the function returns `undefined`
(`none`). -/
def updateMainEmbedTry (w : World) (edit : Awaited (Option String)) (created : Option String) :
    World × List Action × Option String :=
  if ¬ truthy w.CONFIG.mainChannelId then (w, [], none)
  else
    let body := (generateMainEmbed w.stockItem).body
    let ch := strOf w.CONFIG.mainChannelId
    if truthy w.CONFIG.mainMessageId then
      let editAct := Action.send ch w.CONFIG.mainMessageId body
      match edit with
      | Awaited.returned (some m) => (w, [editAct], some m)
      | Awaited.returned none => (w, [editAct, Action.send ch none body], created)
      | Awaited.threw code =>
        if code = 10008 ∨ code = 50005 then
          ({ w with CONFIG := { w.CONFIG with mainMessageId := none } },
           [editAct, Action.send ch none body], created)
        else (w, [editAct], none)
    else (w, [Action.send ch none body], created)

/-- A seeded state with a price-board channel and a stored message id. -/
def boardWorld : World :=
  { seededWorld with
    CONFIG := { initialConfig with mainChannelId := some "100", mainMessageId := some "555" } }

/-! ## The item selection interaction (index.js lines 527-586) -/

/-- The part of a select-menu interaction the handler reads: the user and `values[0]`. -/
structure SelectInteraction where
  userId : String
  username : String
  tag : String
  selectedItemId : String
deriving DecidableEq

/-- The first message of the ticket, carrying the close button (lines 551-566). -/
def closeNotice (userId ownerId : String) (item : StockItem) : MessageBody :=
  { content := some ("Olá <@" ++ userId ++ "> e <@" ++ ownerId
      ++ ">! Este é o seu ticket para a compra de **" ++ item.emoji ++ " " ++ item.name
      ++ "**.\nPor favor, discutam os detalhes da transação aqui.")
    embeds := []
    components := [[{ style := 4, label := "Fechar Ticket", custom_id := "close_ticket" }]] }

/-- The message asking the approver to confirm, carrying the confirm button (lines 570-582). -/
def confirmNotice (userId ownerId : String) (item : StockItem) : MessageBody :=
  { content := some ("<@" ++ ownerId ++ ">, o pedido já foi entregue?")
    embeds := []
    components :=
      [[{ style := 3, label := "Confirmar Entrega", custom_id := confirmCustomId item.id userId }]] }

/-- The `select_item_to_buy` branch of the `interactionCreate` handler.  `owner` is the id of
`(await bot.application.fetch()).owner`, `none` when the owner is `null`; `threadId` is the id
of the thread the platform creates.  With no owner the guard of line 549 skips the owner, and
the template literal of line 552 then reads `owner.id` and throws before `thread.send` is
called; the `catch` block (lines 660-667) answers with a follow-up, the interaction being
deferred. -/
def selectItemToBuy (w : World) (owner : Option String) (i : SelectInteraction)
    (threadId : String) : HandlerResult :=
  match findUnique w.stockItem i.selectedItemId with
  | none =>
    { world := w
      actions := [Action.deferUpdate, Action.followUp "O item selecionado não foi encontrado." true]
      collector := none }
  | some item =>
    let create := Action.threadCreate ("Compra de " ++ item.name ++ " - " ++ i.username) 1440
      ("Ticket de compra para " ++ i.tag)
    match owner with
    | none =>
      { world := w
        actions :=
          [ Action.deferUpdate, create, Action.threadMembersAdd i.userId,
            Action.followUp genericError true ]
        collector := none }
    | some ownerId =>
      { world := w
        actions :=
          [ Action.deferUpdate, create, Action.threadMembersAdd i.userId,
            Action.threadMembersAdd ownerId,
            Action.threadSend (closeNotice i.userId ownerId item),
            Action.threadSend (confirmNotice i.userId ownerId item),
            Action.followUp ("Seu ticket de compra foi criado com sucesso: <#" ++ threadId ++ ">")
              true ]
        collector := none }

/-- Whether a call posts a message carrying a button with the given `custom_id`. -/
def postsButton (customId : String) : Action → Bool
  | Action.threadSend body => body.components.any (fun row => row.any (fun b => b.custom_id = customId))
  | _ => false

/-- Whether a call creates a thread. -/
def createsThread : Action → Bool
  | Action.threadCreate _ _ _ => true
  | _ => false

/-- A buyer selecting `MANGO` in the menu. -/
def mangoSelection : SelectInteraction :=
  { userId := "42", username := "ana", tag := "ana#0", selectedItemId := "MANGO" }

/-! ## Reconciliation from the price-board message (index.js lines 404-454) -/

/-- The call `hay.includes(needle)` on character lists. -/
def includesChars (needle : List Char) : List Char → Bool
  | [] => needle.isEmpty
  | c :: cs => needle.isPrefixOf (c :: cs) || includesChars needle cs

/-- The call `s.includes(sub)`. -/
def jsIncludes (s sub : String) : Bool := includesChars sub.toList s.toList

/-- The replacement `.replace(/\*\*/g, '')` (line 431): every pair of asterisks, found from
left to right, is removed. -/
def stripStars : List Char → List Char
  | [] => []
  | [c] => [c]
  | c :: d :: r =>
    if c = '*' ∧ d = '*' then stripStars r else c :: stripStars (d :: r)

/-- The character a pattern with the flag `i` compares: the upper case of ASCII letters and
of `ç`.  A pattern letter of this program matches a character exactly when the two have the
same image. -/
def canonChar (c : Char) : Char := if c = 'ç' then 'Ç' else c.toUpper

/-- The rest of `s` after a leading occurrence of the literal `pat`, compared ignoring case;
`none` when `s` does not start with it. -/
def matchLiteral : List Char → List Char → Option (List Char)
  | [], s => some s
  | _ :: _, [] => none
  | p :: ps, c :: cs => if canonChar p = canonChar c then matchLiteral ps cs else none

/-- The pattern `/Estoque:\s*([0-9]+|ESGOTADO)/i` tried at the start of `s`: the text of
group 1, or `none`.  The white space is taken in full: after fewer white space characters
the next character is white space, which group 1 cannot start with. -/
def qtyAt (s : List Char) : Option (List Char) :=
  match matchLiteral "Estoque:".toList s with
  | none => none
  | some r =>
    let r1 := r.dropWhile isJsSpace
    let ds := r1.takeWhile Char.isDigit
    if ds ≠ [] then some ds
    else
      match matchLiteral "ESGOTADO".toList r1 with
      | some _ => some (r1.take 8)
      | none => none

/-- The characters of the class `[\d,.]`. -/
def isPriceChar (c : Char) : Bool := c.isDigit || c = ',' || c = '.'

/-- The pattern `/Preço:\s*R\$([\d,.]+)/i` tried at the start of `s`: the text of group 1,
or `none`. -/
def priceAt (s : List Char) : Option (List Char) :=
  match matchLiteral "Preço:".toList s with
  | none => none
  | some r =>
    match matchLiteral "R$".toList (r.dropWhile isJsSpace) with
    | none => none
    | some r2 =>
      let cap := r2.takeWhile isPriceChar
      if cap ≠ [] then some cap else none

/-- The call `s.match(pattern)` for a pattern given by its attempt at one position: the
attempt is made at every position from the left, and the first success is the match. -/
def searchFirst (attempt : List Char → Option (List Char)) : List Char → Option (List Char)
  | [] => attempt []
  | c :: cs =>
    match attempt (c :: cs) with
    | some g => some g
    | none => searchFirst attempt cs

/-- The call `text.replace(',', '.')` (line 440): the first comma becomes a point. -/
def replaceFirstComma : List Char → List Char
  | [] => []
  | c :: cs => if c = ',' then '.' :: cs else c :: replaceFirstComma cs

/-- The object `dataToUpdate` built from the value of one field (lines 431-441). -/
def parseFieldValue (value : String) : UpdateData :=
  let cleaned := stripStars value.toList
  let matchQty := searchFirst qtyAt cleaned
  let matchPrice := searchFirst priceAt cleaned
  { quantity := matchQty.map (fun g =>
      if toUpperCase (String.mk g) = "ESGOTADO" then JsNum.fin 0 else parseInt (String.mk g))
    price := matchPrice.map (fun g => parseFloat (String.mk (replaceFirstComma g))) }

/-- The update pushed for one field (lines 428-445): the first local item whose name the
field name includes, with the data parsed from the value, when there is such an item and the
data has a key. -/
def fieldUpdate (currentStock : List StockItem) (field : EmbedField) :
    Option (String × UpdateData) :=
  match currentStock.find? (fun item => jsIncludes field.name item.name) with
  | none => none
  | some itemInStock =>
    let d := parseFieldValue field.value
    if d.quantity.isSome ∨ d.price.isSome then some (itemInStock.id, d) else none

/-- The list `updatePromises` (lines 423-446). -/
def updatePromises (currentStock : List StockItem) (fields : List EmbedField) :
    List (String × UpdateData) :=
  fields.filterMap (fieldUpdate currentStock)

/-- The call `Promise.all(updatePromises)` (line 448): every update runs on its own, in the
order of the list; one that the store rejects changes nothing and does not undo the others. -/
def settleAll (ops : List (String × UpdateData)) (stock : List StockItem) : List StockItem :=
  ops.foldl (fun s op => (applyUpdate s op).getD s) stock

/-- The function `fetchSelectedMessage` (lines 404-454).  `fetched` is the list
`message.embeds` of the message read from the channel, `none` when the bot is not ready, the
channel is missing or not text based, or the fetch fails. -/
def fetchSelectedMessage (w : World) (fetched : Option (List Embed)) : World :=
  if ¬ truthy w.CONFIG.mainChannelId ∨ ¬ truthy w.CONFIG.mainMessageId then w
  else
    match fetched with
    | some (embed :: _) =>
      { w with stockItem := settleAll (updatePromises w.stockItem embed.fields) w.stockItem }
    | _ => w

/-- An item added after the price board was last written; its name is part of the name of
the seeded `MR CARROT`. -/
def carrotItem : StockItem :=
  { id := "CARROT", name := "CARROT", emoji := "🟠", quantity := 10, price := 1, max := 10 }

/-- The seeded state with `carrotItem` as first row of the stock table. -/
def carrotWorld : World :=
  { boardWorld with stockItem := carrotItem :: defaultStock }

/-- The embeds of the price-board message written from the seeded stock. -/
def seededBoard : List Embed := (generateMainEmbed defaultStock).body.embeds

/-- The number of hundredths `toFixed2` prints: the integer nearest to `|x| * 100`, the larger
one on a tie. -/
def hundredths (x : ℚ) : Nat := (200 * x.num.natAbs + x.den) / (2 * x.den)

/-- An item whose quantity was driven below zero by deliveries. -/
def oversoldItem : StockItem := { mangoItem with quantity := -3 }

/-- An Add request whose id and name have letters outside ASCII. -/
def acaiRequest : AddRequest :=
  { id := some "açaí berry", name := some "Açaí", emoji := none, price := JsNum.nan,
    quantity := JsNum.fin 8, max := JsNum.fin 0 }

/-- The item stored for `acaiRequest`. -/
def acaiItem : StockItem :=
  { id := "AÇAÍ_BERRY", name := "AÇAÍ", emoji := "", quantity := 8, price := 0, max := 8 }

/-! ## Theorems -/

theorem findUnique_id {stock : List StockItem} {id : String} {item : StockItem}
    (h : findUnique stock id = some item) : item.id = id := by
  unfold findUnique at h
  have := List.find?_some h
  simpa using this

theorem findUnique_map_same_id (stock : List StockItem) (id : String)
    (f : StockItem → StockItem) (hf : ∀ it, (f it).id = it.id) :
    findUnique (stock.map (fun it => if it.id = id then f it else it)) id
      = (findUnique stock id).map f := by
  induction stock with
  | nil => rfl
  | cons a t ih =>
    unfold findUnique at ih ⊢
    by_cases h : a.id = id
    · simp [List.find?, h, hf]
    · simp [List.find?, h, ih]

/-- C1: when a delivery channel is configured and the item exists, `createDelivery` appends
exactly one DeliveryRecord (item id, the item's current name, the given quantity) whether the
send returned a message or `null`, subtracts exactly `quantity` from the named item (integer
subtraction, no floor) and leaves every other stock item, and the configuration, unchanged. -/
theorem createDelivery_records_and_decrements (w : World) (sent : Option String)
    (mention : Option String) (itemId : String) (quantity : Int)
    (note photoUrl fb : Option String) (item : StockItem)
    (hch : truthy w.CONFIG.deliveryChannelId = true)
    (hitem : findUnique w.stockItem itemId = some item) :
    (createDelivery w sent mention itemId quantity note photoUrl fb).1.deliveryRecord
        = w.deliveryRecord ++
          [{ mention := mention, itemId := itemId, itemName := item.name,
             quantity := quantity, photoUrl := photoUrl, messageSent := sent.isSome,
             messageStatus := if sent.isSome then 200 else 500 }]
    ∧ findUnique (createDelivery w sent mention itemId quantity note photoUrl fb).1.stockItem itemId
        = some { item with quantity := item.quantity - quantity }
    ∧ (createDelivery w sent mention itemId quantity note photoUrl fb).1.stockItem
        = w.stockItem.map (fun it =>
            if it.id = itemId then { it with quantity := it.quantity - quantity } else it)
    ∧ (createDelivery w sent mention itemId quantity note photoUrl fb).1.CONFIG = w.CONFIG := by
  have hmap := findUnique_map_same_id w.stockItem itemId
    (fun it => { it with quantity := it.quantity - quantity }) (fun _ => rfl)
  simp only [createDelivery, hch, hitem, update, not_true_eq_false, if_false]
  rw [hitem] at hmap
  simpa using hmap

/-- The statement of `createDelivery_records_and_decrements` on the seeded state: a delivery of
3 `MANGO` while the bot is not ready. -/
theorem createDelivery_records_and_decrements_witness :
    (createDelivery seededWorld (sendMessageWithBot SendOutcome.notReady) (some "42") "MANGO" 3
        none none none).1.deliveryRecord
      = seededWorld.deliveryRecord ++
          [{ mention := some "42", itemId := "MANGO", itemName := mangoItem.name,
             quantity := 3, photoUrl := none,
             messageSent := (sendMessageWithBot SendOutcome.notReady).isSome,
             messageStatus := if (sendMessageWithBot SendOutcome.notReady).isSome then 200
                              else 500 }]
    ∧ findUnique (createDelivery seededWorld (sendMessageWithBot SendOutcome.notReady)
        (some "42") "MANGO" 3 none none none).1.stockItem "MANGO"
      = some { mangoItem with quantity := mangoItem.quantity - 3 }
    ∧ (createDelivery seededWorld (sendMessageWithBot SendOutcome.notReady) (some "42") "MANGO" 3
        none none none).1.stockItem
      = seededWorld.stockItem.map (fun it =>
          if it.id = "MANGO" then { it with quantity := it.quantity - 3 } else it)
    ∧ (createDelivery seededWorld (sendMessageWithBot SendOutcome.notReady) (some "42") "MANGO" 3
        none none none).1.CONFIG
      = seededWorld.CONFIG :=
  createDelivery_records_and_decrements seededWorld (sendMessageWithBot SendOutcome.notReady)
    (some "42") "MANGO" 3 none none none mangoItem (by decide) (by decide)

/-- C2: a confirm-delivery interaction whose user is not the approver gets the
permission-denied reply and nothing else happens: the state (records, stock, configuration) is
the one before, the only call made is that reply (so the button is not disabled), and no
collection window is opened. -/
theorem confirmDelivery_rejects_other_users (w : World) (ownerId : String) (i : Interaction)
    (h : i.userId ≠ ownerId) :
    confirmDelivery w (some ownerId) i
      = { world := w
          actions := [Action.reply "Apenas o administrador pode confirmar a entrega." true]
          collector := none } := by
  simp [confirmDelivery, h]

/-- The statement of `confirmDelivery_rejects_other_users` for user `2` when the owner is `1`. -/
theorem confirmDelivery_rejects_other_users_witness :
    confirmDelivery seededWorld (some "1")
        { customId := confirmCustomId "MANGO" "2", userId := "2", channelId := "777" }
      = { world := seededWorld
          actions := [Action.reply "Apenas o administrador pode confirmar a entrega." true]
          collector := none } :=
  confirmDelivery_rejects_other_users seededWorld "1"
    { customId := confirmCustomId "MANGO" "2", userId := "2", channelId := "777" } (by decide)

theorem confirmDelivery_collector_item {w : World} {owner : Option String} {i : Interaction}
    {c : Collector} (h : (confirmDelivery w owner i).collector = some c) :
    ∃ item, findUnique w.stockItem c.itemId = some item := by
  unfold confirmDelivery at h
  split at h
  · simp at h
  · split at h
    · simp at h
    · split at h
      · split at h
        · simp at h
        · next itemId buyerId _ item hfind =>
          simp only [Option.some.injEq] at h
          subst h
          exact ⟨item, hfind⟩
      · simp at h

/-- With a delivery channel configured and the item of the window in stock, one `collect`
followed by `end` with reason `limit`, or `end` with reason `time` alone, appends exactly one
DeliveryRecord: with the photo of the message in the first case, without photo in the second. -/
theorem runCollector_single_event (w : World) (c : Collector) (item : StockItem)
    (sent sent2 : Option String) (m : Message)
    (hch : truthy w.CONFIG.deliveryChannelId = true)
    (hitem : findUnique w.stockItem c.itemId = some item) :
    (runCollector w c [(sent, .collect m), (sent2, .ended "limit")]).1
        = (createDelivery w sent c.buyerId c.itemId 1 (some m.content) m.attachments.head?
            (some c.channelId)).1
    ∧ (runCollector w c [(sent, .collect m), (sent2, .ended "limit")]).1.deliveryRecord
        = w.deliveryRecord ++
          [{ mention := c.buyerId, itemId := c.itemId, itemName := item.name, quantity := 1,
             photoUrl := m.attachments.head?, messageSent := sent.isSome,
             messageStatus := if sent.isSome then 200 else 500 }]
    ∧ (runCollector w c [(sent, .collect m), (sent2, .ended "limit")]).2.head?
        = some (Action.send (strOf w.CONFIG.deliveryChannelId) none
            (deliveryBody w.CONFIG item 1 (some m.content) m.attachments.head?))
    ∧ (runCollector w c [(sent, .ended "time")]).1
        = (createDelivery w sent c.buyerId c.itemId 1 (some cannedNote) none
            (some c.channelId)).1
    ∧ (runCollector w c [(sent, .ended "time")]).1.deliveryRecord
        = w.deliveryRecord ++
          [{ mention := c.buyerId, itemId := c.itemId, itemName := item.name, quantity := 1,
             photoUrl := none, messageSent := sent.isSome,
             messageStatus := if sent.isSome then 200 else 500 }]
    ∧ (runCollector w c [(sent, .ended "time")]).2.head?
        = some (Action.send (strOf w.CONFIG.deliveryChannelId) none
            (deliveryBody w.CONFIG item 1 (some cannedNote) none)) := by
  simp [runCollector, handleEvent, onCollect, onEnd, createDelivery, hch, hitem, update]

/-- The state `createDelivery` leaves when a delivery channel is configured and the item
exists. -/
theorem createDelivery_state (w : World) (sent mention : Option String) (itemId : String)
    (quantity : Int) (note photoUrl fb : Option String) (item : StockItem)
    (hch : truthy w.CONFIG.deliveryChannelId = true)
    (hitem : findUnique w.stockItem itemId = some item) :
    (createDelivery w sent mention itemId quantity note photoUrl fb).1
      = { w with
          deliveryRecord := w.deliveryRecord ++
            [{ mention := mention, itemId := itemId, itemName := item.name,
               quantity := quantity, photoUrl := photoUrl, messageSent := sent.isSome,
               messageStatus := if sent.isSome then 200 else 500 }]
          stockItem := w.stockItem.map (fun it =>
            if it.id = itemId then { it with quantity := it.quantity - quantity } else it) } := by
  simp [createDelivery, hch, hitem, update]

/-- Nothing in the listeners stops a second delivery: when the collector emits `collect` for
two messages (both passed the filter before the first ended it), the callback runs twice and
two DeliveryRecords are appended, the stock going down by two. -/
theorem runCollector_two_collects (w : World) (c : Collector) (item : StockItem)
    (s1 s2 s3 : Option String) (m1 m2 : Message)
    (hch : truthy w.CONFIG.deliveryChannelId = true)
    (hitem : findUnique w.stockItem c.itemId = some item) :
    (runCollector w c [(s1, .collect m1), (s2, .collect m2), (s3, .ended "limit")]).1.deliveryRecord
        = w.deliveryRecord ++
          [{ mention := c.buyerId, itemId := c.itemId, itemName := item.name, quantity := 1,
             photoUrl := m1.attachments.head?, messageSent := s1.isSome,
             messageStatus := if s1.isSome then 200 else 500 },
           { mention := c.buyerId, itemId := c.itemId, itemName := item.name, quantity := 1,
             photoUrl := m2.attachments.head?, messageSent := s2.isSome,
             messageStatus := if s2.isSome then 200 else 500 }]
    ∧ findUnique (runCollector w c
          [(s1, .collect m1), (s2, .collect m2), (s3, .ended "limit")]).1.stockItem c.itemId
        = some { item with quantity := item.quantity - 1 - 1 } := by
  have h1 := createDelivery_state w s1 c.buyerId c.itemId 1 (some m1.content)
    m1.attachments.head? (some c.channelId) item hch hitem
  have hmap := findUnique_map_same_id w.stockItem c.itemId
    (fun it => { it with quantity := it.quantity - 1 }) (fun _ => rfl)
  rw [hitem] at hmap
  have hitem1 : findUnique (createDelivery w s1 c.buyerId c.itemId 1 (some m1.content)
      m1.attachments.head? (some c.channelId)).1.stockItem c.itemId
      = some { item with quantity := item.quantity - 1 } := by
    rw [h1]; simpa using hmap
  have hch1 : truthy (createDelivery w s1 c.buyerId c.itemId 1 (some m1.content)
      m1.attachments.head? (some c.channelId)).1.CONFIG.deliveryChannelId = true := by
    rw [h1]; exact hch
  have h2 := createDelivery_state _ s2 c.buyerId c.itemId 1 (some m2.content)
    m2.attachments.head? (some c.channelId) _ hch1 hitem1
  have hmap2 := findUnique_map_same_id (createDelivery w s1 c.buyerId c.itemId 1
    (some m1.content) m1.attachments.head? (some c.channelId)).1.stockItem c.itemId
    (fun it => { it with quantity := it.quantity - 1 }) (fun _ => rfl)
  rw [hitem1] at hmap2
  have hrun : (runCollector w c
      [(s1, .collect m1), (s2, .collect m2), (s3, .ended "limit")]).1
      = (createDelivery (createDelivery w s1 c.buyerId c.itemId 1 (some m1.content)
          m1.attachments.head? (some c.channelId)).1 s2 c.buyerId c.itemId 1 (some m2.content)
          m2.attachments.head? (some c.channelId)).1 := by
    simp [runCollector, handleEvent, onCollect, onEnd]
  rw [hrun, h2]
  refine ⟨?_, ?_⟩
  · simp [h1]
  · simpa using hmap2

/-- C3: the code departs from the claim when no delivery channel is configured.  For every
state, every proof-collection window and every send outcome, with `CONFIG.deliveryChannelId`
being `''`: the `end` callback with reason `time` leaves the state as it was (zero
DeliveryRecords created, stock untouched) and still tells the approver that the delivery was
registered and schedules the archival; the `collect` callback for a message does the same with
its success reply; so the whole life of the collector, whichever of the two ways it goes,
creates no delivery. -/
theorem proofWindow_without_channel_no_delivery (w : World) (c : Collector)
    (sent sent2 : Option String) (m : Message) :
    onEnd (withoutDeliveryChannel w) sent c "time"
        = (withoutDeliveryChannel w,
            feedback (some c.channelId) "Erro: Canal de entregas não configurado." ++
            [ Action.followUp "⏳ Tempo esgotado. A entrega foi registrada sem foto ou nota." true,
              Action.channelSend "Este ticket será fechado em 10 segundos.",
              Action.archiveAfter 10000 "Entrega confirmada e ticket finalizado." ])
    ∧ onCollect (withoutDeliveryChannel w) sent c m
        = (withoutDeliveryChannel w,
            feedback (some c.channelId) "Erro: Canal de entregas não configurado." ++
            [ Action.msgReply "✅ Entrega registrada com sucesso no canal de entregas!",
              Action.channelSend "Este ticket será fechado em 10 segundos.",
              Action.archiveAfter 10000 "Entrega confirmada e ticket finalizado." ])
    ∧ (runCollector (withoutDeliveryChannel w) c [(sent, .ended "time")]).1.deliveryRecord
        = w.deliveryRecord
    ∧ (runCollector (withoutDeliveryChannel w) c
          [(sent, .collect m), (sent2, .ended "limit")]).1.deliveryRecord
        = w.deliveryRecord
    ∧ (runCollector (withoutDeliveryChannel w) c [(sent, .ended "time")]).1.stockItem
        = w.stockItem := by
  simp [runCollector, handleEvent, onCollect, onEnd, createDelivery, withoutDeliveryChannel,
    truthy, strTruthy, feedback, strOf]

theorem splitChars_confirm_delivery (rest : List Char) :
    ∃ tail, splitChars '_' ("confirm_delivery_".toList ++ rest)
      = "confirm".toList :: "delivery".toList :: tail ∧ tail = splitChars '_' rest := by
  refine ⟨_, ?_, rfl⟩
  have h : "confirm_delivery_".toList
      = ['c','o','n','f','i','r','m','_','d','e','l','i','v','e','r','y','_'] := by decide
  have h1 : "confirm".toList = ['c','o','n','f','i','r','m'] := by decide
  have h2 : "delivery".toList = ['d','e','l','i','v','e','r','y'] := by decide
  rw [h, h1, h2]
  simp [splitChars]

/-- The item id read back from any identifier built at ticket creation is the word
`delivery`, whatever the item and the buyer. -/
theorem decodeCustomId_confirmCustomId_fst (itemId buyerId : String) :
    (decodeCustomId (confirmCustomId itemId buyerId)).1 = some "delivery" := by
  obtain ⟨tail, h, -⟩ := splitChars_confirm_delivery (itemId.toList ++ ('_' :: buyerId.toList))
  have hl : (confirmCustomId itemId buyerId).toList
      = "confirm_delivery_".toList ++ (itemId.toList ++ ('_' :: buyerId.toList)) := by
    simp [confirmCustomId, String.toList]
  unfold decodeCustomId jsSplit
  rw [hl, h]
  simp

/-- C4 (evaluation at the failing input): for item id `MR_CARROT` and buyer `123` the decoding
of line 599 yields item id `delivery` and buyer id `MR`, and the approver pressing the button
of that ticket is answered that the item was not found. -/
theorem decodeCustomId_confirmCustomId_MR_CARROT :
    isConfirmDelivery
        { customId := confirmCustomId "MR_CARROT" "123", userId := "1", channelId := "777" } = true
    ∧ decodeCustomId (confirmCustomId "MR_CARROT" "123") = (some "delivery", some "MR")
    ∧ decodeCustomId (confirmCustomId "TOMATRIO" "123") = (some "delivery", some "TOMATRIO")
    ∧ (confirmDelivery seededWorld (some "1")
        { customId := confirmCustomId "MR_CARROT" "123", userId := "1", channelId := "777" })
      = { world := seededWorld
          actions := [Action.deferReply true, Action.editReply "Erro: Item não encontrado."]
          collector := none } := by
  decide

theorem findUnique_ne_none_iff (stock : List StockItem) (id : String) :
    findUnique stock id ≠ none ↔ id ∈ stock.map (fun it => it.id) := by
  unfold findUnique
  induction stock with
  | nil => simp
  | cons a t ih =>
    by_cases h : a.id = id
    · simp [List.find?, h]
    · have h2 : ¬ id = a.id := fun e => h e.symm
      simp [List.find?, h, h2]

theorem update_of_mem {stock : List StockItem} {id : String} (f : StockItem → StockItem)
    (h : id ∈ stock.map (fun it => it.id)) :
    update stock id f = some (stock.map (fun it => if it.id = id then f it else it)) := by
  have hne := (findUnique_ne_none_iff stock id).2 h
  unfold update
  cases hf : findUnique stock id with
  | none => exact absurd hf hne
  | some _ => rfl

theorem write?_id {d : UpdateData} {f : StockItem → StockItem} (h : d.write? = some f)
    (it : StockItem) : (f it).id = it.id := by
  unfold UpdateData.write? at h
  cases hq : setQuantity? d.quantity with
  | none => simp [hq] at h
  | some fq =>
    cases hp : setPrice? d.price with
    | none => simp [hq, hp] at h
    | some fp =>
      simp only [hq, hp, Option.some.injEq] at h
      subst h
      have h1 : ∀ x, (fq x).id = x.id := by
        intro x
        cases hd : d.quantity with
        | none => simp [hd, setQuantity?] at hq; subst hq; rfl
        | some q =>
          simp only [hd, setQuantity?, Option.map_eq_some'] at hq
          obtain ⟨n, -, rfl⟩ := hq
          rfl
      have h2 : ∀ x, (fp x).id = x.id := by
        intro x
        cases hd : d.price with
        | none => simp [hd, setPrice?] at hp; subst hp; rfl
        | some q =>
          simp only [hd, setPrice?, Option.map_eq_some'] at hp
          obtain ⟨n, -, rfl⟩ := hp
          rfl
      simp [h1, h2]

theorem write?_idem {d : UpdateData} {f : StockItem → StockItem} (h : d.write? = some f)
    (it : StockItem) : f (f it) = f it := by
  unfold UpdateData.write? at h
  cases hq : setQuantity? d.quantity with
  | none => simp [hq] at h
  | some fq =>
    cases hp : setPrice? d.price with
    | none => simp [hq, hp] at h
    | some fp =>
      simp only [hq, hp, Option.some.injEq] at h
      subst h
      cases hdq : d.quantity with
      | none =>
        simp [hdq, setQuantity?] at hq; subst hq
        cases hdp : d.price with
        | none => simp [hdp, setPrice?] at hp; subst hp; rfl
        | some p =>
          simp only [hdp, setPrice?, Option.map_eq_some'] at hp
          obtain ⟨n, -, rfl⟩ := hp
          rfl
      | some q =>
        simp only [hdq, setQuantity?, Option.map_eq_some'] at hq
        obtain ⟨n, -, rfl⟩ := hq
        cases hdp : d.price with
        | none => simp [hdp, setPrice?] at hp; subst hp; rfl
        | some p =>
          simp only [hdp, setPrice?, Option.map_eq_some'] at hp
          obtain ⟨m, -, rfl⟩ := hp
          rfl

theorem dataToUpdate_congr (body : String → Option String) {a b : StockItem}
    (h : a.id = b.id) : dataToUpdate body a = dataToUpdate body b := by
  simp [dataToUpdate, h]

theorem applyData_id (body : String → Option String) (it : StockItem) :
    (applyData body it).id = it.id := by
  unfold applyData
  cases h : (dataToUpdate body it).write? with
  | none => rfl
  | some f => exact write?_id h it

theorem write?_of_no_keys {d : UpdateData} (h : ¬ (d.quantity.isSome ∨ d.price.isSome)) :
    d.write? = some (fun it => it) := by
  have hq : d.quantity = none := by
    cases hd : d.quantity with
    | none => rfl
    | some _ => simp [hd] at h
  have hp : d.price = none := by
    cases hd : d.price with
    | none => rfl
    | some _ => simp [hd] at h
  simp [UpdateData.write?, setQuantity?, setPrice?, hq, hp]

/-- The batch built from `items`, run on a working copy `s` holding a row for each of them:
it commits exactly when the data of every item is acceptable, and then every row whose id is
the id of one of the items carries the data the body holds for it. -/
theorem transaction_updateOperations (body : String → Option String) (items : List StockItem) :
    ∀ s : List StockItem, (∀ a ∈ items, a.id ∈ s.map (fun it => it.id)) →
      transaction (updateOperations body items) s
        = if items.all (acceptable body) then
            some (s.map (fun it =>
              if it.id ∈ items.map (fun a => a.id) then applyData body it else it))
          else none := by
  induction items with
  | nil => intro s _; simp [transaction, updateOperations]
  | cons a t ih =>
    intro s hs
    have ha : a.id ∈ s.map (fun it => it.id) := hs a (List.mem_cons_self _ _)
    have ht : ∀ b ∈ t, b.id ∈ s.map (fun it => it.id) := fun b hb => hs b (List.mem_cons_of_mem _ hb)
    by_cases hk : (dataToUpdate body a).quantity.isSome ∨ (dataToUpdate body a).price.isSome
    · -- the item has an update in the batch
      have hops : updateOperations body (a :: t)
          = (a.id, dataToUpdate body a) :: updateOperations body t := by
        simp [updateOperations, List.filterMap_cons, hk]
      cases hw : (dataToUpdate body a).write? with
      | none =>
        have hacc : acceptable body a = false := by simp [acceptable, hw]
        simp [hops, transaction, List.foldlM, applyUpdate, hw, hacc]
      | some f =>
        have hacc : acceptable body a = true := by simp [acceptable, hw]
        have hstep : applyUpdate s (a.id, dataToUpdate body a)
            = some (s.map (fun it => if it.id = a.id then f it else it)) := by
          simp only [applyUpdate, hw]
          exact update_of_mem f ha
        have hids : (s.map (fun it => if it.id = a.id then f it else it)).map (fun it => it.id)
            = s.map (fun it => it.id) := by
          rw [List.map_map]
          apply List.map_congr_left
          intro x _
          by_cases hx : x.id = a.id
          · simp [hx, write?_id hw]
          · simp [hx]
        have ht2 : ∀ b ∈ t, b.id ∈
            (s.map (fun it => if it.id = a.id then f it else it)).map (fun it => it.id) := by
          rw [hids]; exact ht
        have ih2 := ih _ ht2
        unfold transaction at ih2 ⊢
        rw [hops, List.foldlM_cons, hstep]
        simp only [Option.bind_eq_bind, Option.some_bind, Option.pure_def]
        rw [ih2]
        simp only [List.all_cons, hacc, Bool.true_and]
        by_cases hall : t.all (acceptable body) = true
        · simp only [hall, if_true, Option.some.injEq, List.map_map]
          apply List.map_congr_left
          intro x _
          have hfx : ∀ y : StockItem, y.id = a.id → applyData body y = f y := by
            intro y hy
            unfold applyData
            rw [dataToUpdate_congr body hy, hw]
          by_cases hx : x.id = a.id
          · have hfid : (f x).id = a.id := by rw [write?_id hw, hx]
            simp only [Function.comp, hx, if_true, hfid, List.map_cons, List.mem_cons, true_or]
            by_cases hmem : a.id ∈ t.map (fun a => a.id)
            · simp only [hmem, if_true]
              rw [hfx (f x) hfid, hfx x hx, write?_idem hw]
            · simp only [hmem, if_false]
              rw [hfx x hx]
          · simp only [Function.comp, hx, if_false, List.map_cons, List.mem_cons, false_or]
        · simp [hall]
    · -- the body has no key for the item: no update, and its data changes nothing
      have hops : updateOperations body (a :: t) = updateOperations body t := by
        simp [updateOperations, List.filterMap_cons, hk]
      have hw := write?_of_no_keys hk
      have hacc : acceptable body a = true := by simp [acceptable, hw]
      rw [hops, ih s ht]
      simp only [List.all_cons, hacc, Bool.true_and]
      by_cases hall : t.all (acceptable body) = true
      · simp only [hall, if_true, Option.some.injEq]
        apply List.map_congr_left
        intro x _
        by_cases hx : x.id = a.id
        · have hxa : applyData body x = x := by
            unfold applyData
            rw [dataToUpdate_congr body hx, hw]
          simp only [hx, List.map_cons, List.mem_cons, true_or, if_true, hxa]
          split <;> rfl
        · simp only [hx, List.map_cons, List.mem_cons, false_or]
      · simp [hall]

theorem updateMainEmbed_world (w : World) (edited created : Option String) :
    (updateMainEmbed w edited created).1 = w := by
  unfold updateMainEmbed
  by_cases h1 : truthy w.CONFIG.mainChannelId = true
  · by_cases h2 : truthy w.CONFIG.mainMessageId = true
    · cases edited <;> simp [h1, h2]
    · simp [h1, h2]
  · simp [h1]

theorem refreshAfterUpdate_tables (w : World) (edited created : Option String) :
    (refreshAfterUpdate w edited created).1.stockItem = w.stockItem
    ∧ (refreshAfterUpdate w edited created).1.deliveryRecord = w.deliveryRecord := by
  have hw := updateMainEmbed_world w edited created
  unfold refreshAfterUpdate
  by_cases h1 : truthy w.CONFIG.mainChannelId = true
  · simp only [h1, if_true]
    cases hm : (updateMainEmbed w edited created).2.2 with
    | none => simp [hw]
    | some messageId =>
      by_cases h2 : truthy w.CONFIG.mainMessageId = true
      · simp [hw, h2]
      · by_cases h3 : w.CONFIG.isManagedExternally = true
        · simp [hw, h2, saveConfig, h3]
        · simp [hw, h2, saveConfig, h3]
  · simp [h1]

theorem acceptable_false_of_nan_quantity (body : String → Option String) (it : StockItem)
    (v : String) (hv : body (it.id ++ "_quantity") = some v) (hnan : parseInt v = JsNum.nan) :
    acceptable body it = false := by
  simp [acceptable, UpdateData.write?, dataToUpdate, hv, hnan, setQuantity?, JsNum.toInt?]

theorem toInt?_fin_cast {q : ℚ} {n : Int} (h : (JsNum.fin q).toInt? = some n) : (n : ℚ) = q := by
  simp [JsNum.toInt?] at h
  obtain ⟨⟨hden, -⟩, hnum⟩ := h
  rw [← hnum]
  exact Rat.coe_int_num_of_den_eq_one hden

theorem toFinite?_fin {q p : ℚ} (h : (JsNum.fin q).toFinite? = some p) : p = q := by
  simp [JsNum.toFinite?] at h
  exact h.2.symm

theorem toInt?_eq_some_iff (x : JsNum) (n : Int) :
    x.toInt? = some n ↔ x = JsNum.fin n ∧ overflows n = false := by
  cases x with
  | nan => simp [JsNum.toInt?]
  | inf b => simp [JsNum.toInt?]
  | fin q =>
    constructor
    · intro h
      have hq : (n : ℚ) = q := toInt?_fin_cast h
      simp [JsNum.toInt?] at h
      rw [hq]
      exact ⟨rfl, h.1.2⟩
    · rintro ⟨hx, hov⟩
      simp only [JsNum.fin.injEq] at hx
      subst hx
      simp [JsNum.toInt?, hov]

theorem toFinite?_eq_some_iff (x : JsNum) (p : ℚ) :
    x.toFinite? = some p ↔ x = JsNum.fin p ∧ overflows p = false := by
  cases x with
  | nan => simp [JsNum.toFinite?]
  | inf b => simp [JsNum.toFinite?]
  | fin q =>
    constructor
    · intro h
      have hq : p = q := toFinite?_fin h
      simp [JsNum.toFinite?] at h
      rw [hq]
      exact ⟨rfl, h.1⟩
    · rintro ⟨hx, hov⟩
      simp only [JsNum.fin.injEq] at hx
      subst hx
      simp [JsNum.toFinite?, hov]

theorem setQuantity?_isSome_iff (x : Option JsNum) :
    (setQuantity? x).isSome = true
      ↔ ∀ v, x = some v → ∃ n : Int, v = JsNum.fin n ∧ overflows n = false := by
  cases x with
  | none => simp [setQuantity?]
  | some v =>
    cases h : v.toInt? with
    | none =>
      simp only [setQuantity?, h, Option.map_none', Option.isSome_none, Bool.false_eq_true,
        Option.some.injEq, forall_eq', false_iff, not_exists]
      intro n hn
      have := (toInt?_eq_some_iff v n).2 hn
      rw [h] at this
      exact Option.noConfusion this
    | some n =>
      simp only [setQuantity?, h, Option.map_some', Option.isSome_some, Option.some.injEq,
        forall_eq', true_iff]
      exact ⟨n, (toInt?_eq_some_iff v n).1 h⟩

theorem setPrice?_isSome_iff (x : Option JsNum) :
    (setPrice? x).isSome = true
      ↔ ∀ v, x = some v → ∃ p : ℚ, v = JsNum.fin p ∧ overflows p = false := by
  cases x with
  | none => simp [setPrice?]
  | some v =>
    cases h : v.toFinite? with
    | none =>
      simp only [setPrice?, h, Option.map_none', Option.isSome_none, Bool.false_eq_true,
        Option.some.injEq, forall_eq', false_iff, not_exists]
      intro n hn
      have := (toFinite?_eq_some_iff v n).2 hn
      rw [h] at this
      exact Option.noConfusion this
    | some n =>
      simp only [setPrice?, h, Option.map_some', Option.isSome_some, Option.some.injEq,
        forall_eq', true_iff]
      exact ⟨n, (toFinite?_eq_some_iff v n).1 h⟩

theorem write?_isSome_iff (d : UpdateData) :
    d.write?.isSome = true ↔ (setQuantity? d.quantity).isSome = true ∧ (setPrice? d.price).isSome = true := by
  unfold UpdateData.write?
  cases setQuantity? d.quantity <;> cases setPrice? d.price <;> simp

/-- The store accepts the data for an item exactly when the quantity value, if the body has
one, parses to an integer in range, and the price value, if the body has one, parses to a
finite number. -/
theorem acceptable_iff (body : String → Option String) (it : StockItem) :
    acceptable body it = true
      ↔ (∀ v, body (it.id ++ "_quantity") = some v →
            ∃ n : Int, parseInt v = JsNum.fin n ∧ overflows n = false)
        ∧ (∀ v, body (it.id ++ "_price") = some v →
            ∃ p : ℚ, parseFloat v = JsNum.fin p ∧ overflows p = false) := by
  unfold acceptable
  rw [write?_isSome_iff, setQuantity?_isSome_iff, setPrice?_isSome_iff]
  simp only [dataToUpdate, Option.map_eq_some']
  constructor
  · rintro ⟨hq, hp⟩
    exact ⟨fun v hv => hq _ ⟨v, hv, rfl⟩, fun v hv => hp _ ⟨v, hv, rfl⟩⟩
  · rintro ⟨hq, hp⟩
    refine ⟨?_, ?_⟩
    · rintro x ⟨v, hv, rfl⟩
      exact hq v hv
    · rintro x ⟨v, hv, rfl⟩
      exact hp v hv

/-- What an accepted update writes: the quantity and the price the body holds for the item,
parsed; a column whose key the body lacks, and every other column, stays as it was. -/
theorem applyData_spec (body : String → Option String) (it : StockItem)
    (h : acceptable body it = true) :
    (applyData body it).id = it.id ∧ (applyData body it).name = it.name
      ∧ (applyData body it).emoji = it.emoji ∧ (applyData body it).max = it.max
      ∧ (body (it.id ++ "_quantity") = none → (applyData body it).quantity = it.quantity)
      ∧ (∀ v, body (it.id ++ "_quantity") = some v →
          parseInt v = JsNum.fin (applyData body it).quantity)
      ∧ (body (it.id ++ "_price") = none → (applyData body it).price = it.price)
      ∧ (∀ v, body (it.id ++ "_price") = some v →
          parseFloat v = JsNum.fin (applyData body it).price) := by
  unfold acceptable at h
  unfold applyData
  unfold UpdateData.write? at h ⊢
  simp only [dataToUpdate] at h ⊢
  cases hq : body (it.id ++ "_quantity") with
  | none =>
    cases hp : body (it.id ++ "_price") with
    | none => simp [setQuantity?, setPrice?]
    | some vp =>
      cases hpv : (parseFloat vp).toFinite? with
      | none => simp [hq, hp, setQuantity?, setPrice?, hpv] at h
      | some x =>
        have hx := ((toFinite?_eq_some_iff _ _).1 hpv).1
        simpa [setQuantity?, setPrice?, hpv] using hx
  | some vq =>
    cases hqv : (parseInt vq).toInt? with
    | none => simp [hq, setQuantity?, hqv] at h
    | some n =>
      have hn := ((toInt?_eq_some_iff _ _).1 hqv).1
      cases hp : body (it.id ++ "_price") with
      | none => simpa [setQuantity?, setPrice?, hqv] using hn
      | some vp =>
        cases hpv : (parseFloat vp).toFinite? with
        | none => simp [hq, hp, setQuantity?, setPrice?, hqv, hpv] at h
        | some x =>
          have hx := ((toFinite?_eq_some_iff _ _).1 hpv).1
          simpa [setQuantity?, setPrice?, hqv, hpv] using ⟨hn, hx⟩

/-- C5: `POST /update-stock` is all-or-nothing.  An update of the batch is invalid when its
quantity value does not parse to an integer in range or its price value does not parse to a
finite number (`acceptable` says exactly this).  If the update for some item is invalid the
handler answers 500 and the whole state is the one before: no update of the batch is applied.
If every update is valid, every item has the parsed quantity and price the body holds for it,
its other columns and the columns without a key as before; the delivery log is untouched and
the answer is the new stock in name order. -/
theorem updateStock_all_or_nothing (w : World) (body : String → Option String)
    (edited created : Option String) :
    ((∃ it ∈ w.stockItem, acceptable body it = false) →
        updateStock w body edited created
          = (w, [], Response.error 500 "Falha ao atualizar o estoque."))
    ∧ ((∀ it ∈ w.stockItem, acceptable body it = true) →
        (updateStock w body edited created).1.stockItem = w.stockItem.map (applyData body)
        ∧ (updateStock w body edited created).1.deliveryRecord = w.deliveryRecord
        ∧ (updateStock w body edited created).2.2
            = Response.success none
                (some (findManyByName (w.stockItem.map (applyData body)))) none none)
    ∧ (∀ it : StockItem, acceptable body it = true
        ↔ (∀ v, body (it.id ++ "_quantity") = some v →
              ∃ n : Int, parseInt v = JsNum.fin n ∧ overflows n = false)
          ∧ (∀ v, body (it.id ++ "_price") = some v →
              ∃ p : ℚ, parseFloat v = JsNum.fin p ∧ overflows p = false))
    ∧ (∀ it : StockItem, acceptable body it = true →
        (applyData body it).id = it.id ∧ (applyData body it).name = it.name
        ∧ (applyData body it).emoji = it.emoji ∧ (applyData body it).max = it.max
        ∧ (body (it.id ++ "_quantity") = none → (applyData body it).quantity = it.quantity)
        ∧ (∀ v, body (it.id ++ "_quantity") = some v →
            parseInt v = JsNum.fin (applyData body it).quantity)
        ∧ (body (it.id ++ "_price") = none → (applyData body it).price = it.price)
        ∧ (∀ v, body (it.id ++ "_price") = some v →
            parseFloat v = JsNum.fin (applyData body it).price))
    ∧ (∀ it ∈ w.stockItem, ∀ v, body (it.id ++ "_quantity") = some v →
        parseInt v = JsNum.nan → acceptable body it = false) := by
  have htx := transaction_updateOperations body w.stockItem w.stockItem
    (fun a ha => List.mem_map_of_mem (fun it => it.id) ha)
  refine ⟨?_, ?_, acceptable_iff body, applyData_spec body, ?_⟩
  · rintro ⟨it, hmem, hbad⟩
    have hall : w.stockItem.all (acceptable body) = false := by
      rw [List.all_eq_false]
      exact ⟨it, hmem, by simp [hbad]⟩
    simp [updateStock, htx, hall]
  · intro hok
    have hall : w.stockItem.all (acceptable body) = true := by
      rw [List.all_eq_true]
      exact hok
    have hmap : w.stockItem.map (fun it =>
          if it.id ∈ w.stockItem.map (fun a => a.id) then applyData body it else it)
        = w.stockItem.map (applyData body) := by
      apply List.map_congr_left
      intro x hx
      simp [List.mem_map_of_mem (fun it => it.id) hx]
    have hr := refreshAfterUpdate_tables
      { w with stockItem := w.stockItem.map (applyData body) } edited created
    simp only [updateStock, htx, hall, if_true, hmap]
    exact ⟨hr.1, hr.2, by rw [hr.1]⟩
  · intro it _ v hv hnan
    exact acceptable_false_of_nan_quantity body it v hv hnan

/-- The statement of `updateStock_all_or_nothing` on the seeded state.  A batch with a valid
price for `TOMATRIO` and the quantity `abc` for `MANGO` is refused as a whole; so is the batch
whose price is `1e400`, an infinity; the batch with the price `0.75` and the quantity `7` is
applied: `TOMATRIO` then costs 0.75 and `MANGO` has 7 in stock, the rest is as seeded. -/
theorem updateStock_all_or_nothing_witness :
    updateStock seededWorld (twoKeys "abc") none none
        = (seededWorld, [], Response.error 500 "Falha ao atualizar o estoque.")
    ∧ updateStock seededWorld (overflowKeys "7") none none
        = (seededWorld, [], Response.error 500 "Falha ao atualizar o estoque.")
    ∧ (updateStock seededWorld (twoKeys "7") none none).1.stockItem
        = seededWorld.stockItem.map (applyData (twoKeys "7"))
    ∧ (updateStock seededWorld (twoKeys "7") none none).1.stockItem
        = [ { id := "TOMATRIO", name := "TOMATRIO", emoji := "🍅", quantity := 202,
              price := mkRat 3 4, max := 300 },
            { mangoItem with quantity := 7 },
            { id := "MR_CARROT", name := "MR CARROT", emoji := "🥕", quantity := 74,
              price := mkRat 2 5, max := 150 },
            { id := "PLANTA", name := "PLANTA (100k ~ 500k DPS)", emoji := "🌱", quantity := 12,
              price := mkRat 15 2, max := 20 } ]
    ∧ acceptable (twoKeys "abc") mangoItem = false :=
  ⟨(updateStock_all_or_nothing seededWorld (twoKeys "abc") none none).1
      ⟨mangoItem, by decide, by decide⟩,
   (updateStock_all_or_nothing seededWorld (overflowKeys "7") none none).1
      ⟨tomatrioItem, by decide, by decide!⟩,
   ((updateStock_all_or_nothing seededWorld (twoKeys "7") none none).2.1 (by decide)).1,
   by decide,
   (updateStock_all_or_nothing seededWorld (twoKeys "abc") none none).2.2.2.2
      mangoItem (by decide) "abc" (by decide) (by decide)⟩

theorem twoDigits_digits : ∀ n < 100,
    twoDigits n = String.mk [Char.ofNat (48 + n / 10), Char.ofNat (48 + n % 10)]
    ∧ (Char.ofNat (48 + n / 10)).isDigit = true ∧ (Char.ofNat (48 + n % 10)).isDigit = true := by
  decide

/-- The text of `toFixed(2)` ends with a point and exactly two decimal digits. -/
theorem toFixed2_two_decimals (x : ℚ) :
    ∃ (head : String) (d1 d2 : Char),
      toFixed2 x = head ++ "." ++ String.mk [d1, d2] ∧ d1.isDigit = true ∧ d2.isDigit = true := by
  have h := twoDigits_digits (((200 * x.num.natAbs + x.den) / (2 * x.den)) % 100)
    (Nat.mod_lt _ (by norm_num))
  refine ⟨(if x < 0 then "-" else "")
      ++ toString (((200 * x.num.natAbs + x.den) / (2 * x.den)) / 100), _, _, ?_, h.2.1, h.2.2⟩
  rw [← h.1]
  rfl

theorem nameLe_total (a b : StockItem) : nameLe a b ∨ nameLe b a :=
  le_total a.name.toList b.name.toList

theorem nameLe_trans {a b c : StockItem} (h1 : nameLe a b) (h2 : nameLe b c) : nameLe a c :=
  le_trans (α := List Char) h1 h2

theorem findManyByName_sorted (stock : List StockItem) :
    (findManyByName stock).Sorted nameLe := by
  haveI : IsTotal StockItem nameLe := ⟨nameLe_total⟩
  haveI : IsTrans StockItem nameLe := ⟨fun _ _ _ => nameLe_trans⟩
  exact List.sorted_insertionSort nameLe stock

theorem findManyByName_perm (stock : List StockItem) : (findManyByName stock).Perm stock :=
  List.perm_insertionSort nameLe stock

theorem esgotado_ne_zero (pre : String) : pre ++ "ESGOTADO" ≠ pre ++ "0" := by
  intro h
  have h2 := congrArg String.data h
  simp only [String.data_append, List.append_cancel_left_eq] at h2
  exact absurd h2 (by decide)

/-- C8: `generateMainEmbed` renders one field per stock item, in the name order of the list
query; the field of an item is named `<emoji> <name>`, its value holds the price in the
`toFixed(2)` form (a point and two decimal digits), and the quantity part reads `ESGOTADO`,
not `0`, when the quantity is 0 and the decimal quantity when it is greater than 0. -/
theorem generateMainEmbed_fields (stock : List StockItem) :
    ∃ e, (generateMainEmbed stock).body.embeds = [e]
      ∧ e.fields.length = stock.length
      ∧ (findManyByName stock).Perm stock
      ∧ (findManyByName stock).Sorted nameLe
      ∧ List.Forall₂ (fun item f =>
          f.name = item.emoji ++ " " ++ item.name
          ∧ (item.quantity = 0 →
              f.value = "**Preço:** R$" ++ toFixed2 item.price ++ "\n**Estoque:** " ++ "ESGOTADO"
              ∧ f.value ≠ "**Preço:** R$" ++ toFixed2 item.price ++ "\n**Estoque:** " ++ "0")
          ∧ (0 < item.quantity →
              f.value = "**Preço:** R$" ++ toFixed2 item.price ++ "\n**Estoque:** "
                ++ toString item.quantity.toNat)
          ∧ ∃ (head : String) (d1 d2 : Char),
              toFixed2 item.price = head ++ "." ++ String.mk [d1, d2]
              ∧ d1.isDigit = true ∧ d2.isDigit = true)
          (findManyByName stock) e.fields := by
  refine ⟨_, rfl, ?_, findManyByName_perm stock, findManyByName_sorted stock, ?_⟩
  · simp [(findManyByName_perm stock).length_eq]
  · simp only [List.forall₂_map_right_iff]
    apply List.forall₂_same.2
    intro item _
    refine ⟨rfl, ?_, ?_, toFixed2_two_decimals item.price⟩
    · intro h0
      have hv : (mainEmbedField item).value
          = "**Preço:** R$" ++ toFixed2 item.price ++ "\n**Estoque:** " ++ "ESGOTADO" := by
        simp [mainEmbedField, h0]
      exact ⟨hv, by rw [hv]; exact esgotado_ne_zero _⟩
    · intro hpos
      have hq : item.quantity = ((item.quantity.toNat : Nat) : Int) :=
        (Int.toNat_of_nonneg hpos.le).symm
      have hs : toString item.quantity = toString item.quantity.toNat := by
        conv_lhs => rw [hq]
        rfl
      simp [mainEmbedField, hpos, hs]

/-- C6 (as stated, refuted): an Add request whose id normalises to the existing id `TOMATRIO`
but which has no name is not answered with the conflict error `ID já existe`: the
required-field check comes first and answers `id e name obrigatórios`. -/
theorem addFruit_existing_id_without_name :
    findUnique seededWorld.stockItem (normalizeId "tomatrio") ≠ none
    ∧ addFruit seededWorld
        { id := some "tomatrio", name := none, emoji := none, price := JsNum.nan,
          quantity := JsNum.nan, max := JsNum.nan }
      = (seededWorld, Response.error 400 "id e name obrigatórios")
    ∧ Response.error 400 "id e name obrigatórios" ≠ Response.error 400 "ID já existe" := by
  decide

/-- C6 (amended): an Add request with a non-empty id and name whose normalised id is the id
of an existing item is answered 400 `ID já existe`, whatever the casing and spacing of the id
as sent, and the state is unchanged. -/
theorem addFruit_rejects_existing_id (w : World) (req : AddRequest) (id name : String)
    (hid : req.id = some id) (hname : req.name = some name)
    (hid1 : id ≠ "") (hname1 : name ≠ "")
    (hex : normalizeId id ∈ w.stockItem.map (fun it => it.id)) :
    addFruit w req = (w, Response.error 400 "ID já existe") := by
  have hne := (findUnique_ne_none_iff w.stockItem (normalizeId id)).2 hex
  cases hf : findUnique w.stockItem (normalizeId id) with
  | none => exact absurd hf hne
  | some it => simp [addFruit, hid, hname, truthy, strTruthy, hid1, hname1, hf]

/-- The statement of `addFruit_rejects_existing_id` for the id `mr \t carrot`, which normalises
to the seeded `MR_CARROT`. -/
theorem addFruit_rejects_existing_id_witness :
    addFruit seededWorld
        { id := some "mr \t carrot", name := some "Carrot", emoji := none, price := JsNum.nan,
          quantity := JsNum.nan, max := JsNum.nan }
      = (seededWorld, Response.error 400 "ID já existe") :=
  addFruit_rejects_existing_id seededWorld
    { id := some "mr \t carrot", name := some "Carrot", emoji := none, price := JsNum.nan,
      quantity := JsNum.nan, max := JsNum.nan }
    "mr \t carrot" "Carrot" rfl rfl (by decide) (by decide) (by decide)

theorem findUnique_eq_none_filter {stock : List StockItem} {id : String}
    (h : findUnique stock id = none) : stock.filter (fun it => decide (it.id = id)) = [] := by
  unfold findUnique at h
  rw [List.find?_eq_none] at h
  rw [List.filter_eq_nil_iff]
  exact h

/-- C7: after an Add request that succeeds, the list in the answer is the list `GET
/get-stock` returns, it is ordered by name ascending, and the items in it carrying the
normalised id of the request are exactly one: the new item. -/
theorem addFruit_then_list (w w1 : World) (req : AddRequest) (stock : List StockItem)
    (item : StockItem)
    (h : addFruit w req = (w1, Response.success none (some stock) (some item) none)) :
    ∃ id, req.id = some id
      ∧ item.id = normalizeId id
      ∧ stock = getStock w1
      ∧ stock.Sorted nameLe
      ∧ stock.filter (fun it => decide (it.id = normalizeId id)) = [item]
      ∧ stock.Perm (w.stockItem ++ [item]) := by
  unfold addFruit at h
  split at h
  · simp at h
  · split at h
    · next _ _ id name hreqid _ =>
      split at h
      · simp at h
      · next hnone =>
        split at h
        · simp at h
        · next created hcreate =>
          simp only [Prod.mk.injEq, Response.success.injEq, Option.some.injEq, true_and] at h
          obtain ⟨hw, hstock, hitem, -⟩ := h
          subst hitem
          have hid : created.id = normalizeId id := by
            unfold createItem at hcreate
            split at hcreate
            · simp only [Option.some.injEq] at hcreate
              rw [← hcreate]
              rfl
            · simp at hcreate
          have hperm : stock.Perm (w.stockItem ++ [created]) := by
            rw [← hstock]
            exact findManyByName_perm _
          refine ⟨id, hreqid, hid, ?_, ?_, ?_, hperm⟩
          · rw [← hw, ← hstock]; rfl
          · rw [← hstock]; exact findManyByName_sorted _
          · have hf := hperm.filter (fun it => decide (it.id = normalizeId id))
            rw [List.filter_append, findUnique_eq_none_filter hnone] at hf
            simp only [List.nil_append, List.filter_cons, List.filter_nil, hid, decide_True,
              if_true] at hf
            exact List.perm_singleton.1 hf
    · simp at h

/-- The statement of `addFruit_then_list` for `acaiRequest` on the seeded state: the stored id
is `AÇAÍ_BERRY`. -/
theorem addFruit_then_list_witness :
    ∃ id, acaiRequest.id = some id
      ∧ acaiItem.id = normalizeId id
      ∧ findManyByName (defaultStock ++ [acaiItem])
          = getStock { seededWorld with stockItem := defaultStock ++ [acaiItem] }
      ∧ (findManyByName (defaultStock ++ [acaiItem])).Sorted nameLe
      ∧ (findManyByName (defaultStock ++ [acaiItem])).filter
          (fun it => decide (it.id = normalizeId id)) = [acaiItem]
      ∧ (findManyByName (defaultStock ++ [acaiItem])).Perm (seededWorld.stockItem ++ [acaiItem]) :=
  addFruit_then_list seededWorld { seededWorld with stockItem := defaultStock ++ [acaiItem] }
    acaiRequest (findManyByName (defaultStock ++ [acaiItem])) acaiItem (by decide)

theorem assignIfDefined_idem (v : Option (Option String)) (old : Option String) :
    assignIfDefined v (assignIfDefined v old) = assignIfDefined v old := by
  cases v <;> rfl

/-- C9: `POST /save-config` is idempotent: sending the same payload a second time leaves the
state, and so the configuration `GET /get-config` returns, as after the first time; a key
absent from the payload keeps its value, and `isManagedExternally` is never changed. -/
theorem saveConfigHandler_idempotent (w : World) (p : ConfigPayload) :
    (saveConfigHandler (saveConfigHandler w p).1 p).1 = (saveConfigHandler w p).1
    ∧ getConfig (saveConfigHandler (saveConfigHandler w p).1 p).1
        = getConfig (saveConfigHandler w p).1
    ∧ (getConfig (saveConfigHandler w p).1).isManagedExternally = w.CONFIG.isManagedExternally
    ∧ (p.mainChannelId = none →
        (getConfig (saveConfigHandler w p).1).mainChannelId = w.CONFIG.mainChannelId)
    ∧ (p.deliveryChannelId = none →
        (getConfig (saveConfigHandler w p).1).deliveryChannelId = w.CONFIG.deliveryChannelId)
    ∧ (p.mainMessageId = none →
        (getConfig (saveConfigHandler w p).1).mainMessageId = w.CONFIG.mainMessageId)
    ∧ (p.clientRoleId = none →
        (getConfig (saveConfigHandler w p).1).clientRoleId = w.CONFIG.clientRoleId)
    ∧ (p.guildId = none →
        (getConfig (saveConfigHandler w p).1).guildId = w.CONFIG.guildId)
    ∧ (∀ v, p.mainChannelId = some v → (getConfig (saveConfigHandler w p).1).mainChannelId = v)
    ∧ (∀ v, p.deliveryChannelId = some v →
        (getConfig (saveConfigHandler w p).1).deliveryChannelId = v)
    ∧ (∀ v, p.mainMessageId = some v → (getConfig (saveConfigHandler w p).1).mainMessageId = v)
    ∧ (∀ v, p.clientRoleId = some v → (getConfig (saveConfigHandler w p).1).clientRoleId = v)
    ∧ (∀ v, p.guildId = some v → (getConfig (saveConfigHandler w p).1).guildId = v) := by
  have hcfg : ∀ u : World, (saveConfig u).CONFIG = u.CONFIG := by
    intro u; unfold saveConfig; split <;> rfl
  have hidem : (saveConfigHandler (saveConfigHandler w p).1 p).1 = (saveConfigHandler w p).1 := by
    by_cases hm : w.CONFIG.isManagedExternally = true
    · simp [saveConfigHandler, saveConfig, hm, assignIfDefined_idem]
    · simp [saveConfigHandler, saveConfig, hm, assignIfDefined_idem]
  refine ⟨hidem, by rw [hidem], ?_, ?_, ?_, ?_, ?_, ?_, ?_, ?_, ?_, ?_, ?_⟩
  · simp [getConfig, saveConfigHandler, hcfg]
  all_goals
    intros
    simp [getConfig, saveConfigHandler, hcfg, assignIfDefined, *]

/-- The handler of `POST /deliver` never writes the stock table. -/
theorem deliver_stock_unchanged (w : World) (req : DeliverRequest) (file : Option String)
    (baseUrl : String) (sent : Option String) :
    (deliver w req file baseUrl sent).1.stockItem = w.stockItem := by
  unfold deliver
  split
  · rfl
  · split
    · rfl
    · split
      · rfl
      · split
        · rfl
        · simp only []
          split <;> rfl

/-- C10 (evaluation at the failing input): a successful `POST /deliver` of 3 `MANGO` appends
one DeliveryRecord, for either outcome of the send, and leaves the quantity of `MANGO` at 260
(not 257): the stock table is the one before. -/
theorem deliver_MANGO_keeps_quantity :
    (deliver seededWorld mangoDelivery none "http://panel" (some "m1")).1.deliveryRecord
      = [{ mention := some "42", itemId := "MANGO", itemName := "MANGO", quantity := 3,
           photoUrl := none, messageSent := true, messageStatus := 200 }]
    ∧ (deliver seededWorld mangoDelivery none "http://panel"
        (sendMessageWithBot (SendOutcome.apiError 50013))).1.deliveryRecord
      = [{ mention := some "42", itemId := "MANGO", itemName := "MANGO", quantity := 3,
           photoUrl := none, messageSent := false, messageStatus := 500 }]
    ∧ (deliver seededWorld mangoDelivery none "http://panel" (some "m1")).2.2
      = Response.success none none none
          (some { mention := some "42", itemId := "MANGO", itemName := "MANGO", quantity := 3,
                  photoUrl := none, messageSent := true, messageStatus := 200 })
    ∧ (deliver seededWorld mangoDelivery none "http://panel" (some "m1")).1.stockItem
      = seededWorld.stockItem
    ∧ (findUnique (deliver seededWorld mangoDelivery none "http://panel" (some "m1")).1.stockItem
        "MANGO").map (fun it => it.quantity) = some 260
    ∧ (findUnique (createDelivery seededWorld (some "m1") (some "42") "MANGO" 3 none none
        none).1.stockItem "MANGO").map (fun it => it.quantity) = some 257 := by
  decide

/-- With no delivery channel configured, or with an item id naming no item, `POST /deliver`
answers 400, makes no call and leaves the state as it was. -/
theorem deliver_rejects (w : World) (req : DeliverRequest) (file : Option String)
    (baseUrl : String) (sent : Option String)
    (h : truthy w.CONFIG.deliveryChannelId = false
      ∨ ∀ id, req.itemId = some id → findUnique w.stockItem id = none) :
    ∃ msg, deliver w req file baseUrl sent = (w, [], Response.error 400 msg) := by
  unfold deliver
  by_cases hch : truthy w.CONFIG.deliveryChannelId = true
  · have hmiss : ∀ id, req.itemId = some id → findUnique w.stockItem id = none := by
      rcases h with h | h
      · rw [hch] at h; exact absurd h (by decide)
      · exact h
    cases hid : req.itemId with
    | none => exact ⟨"itemId requerido", by simp [hch]⟩
    | some id =>
      by_cases hs : strTruthy id = true
      · exact ⟨"item não encontrado", by simp [hch, hs, hmiss id hid]⟩
      · exact ⟨"itemId requerido", by simp [hch, hs]⟩
  · exact ⟨"Canal de entregas não configurado no painel.", by simp [hch]⟩

/-- The refresh as the program runs it is `updateMainEmbedTry` on an edit call that returns:
the branches for a thrown edit error are never taken. -/
theorem updateMainEmbed_eq_try (w : World) (o : SendOutcome) (created : Option String) :
    updateMainEmbed w (sendMessageWithBot o) created
      = updateMainEmbedTry w (awaitSendMessageWithBot o) created := by
  unfold updateMainEmbed updateMainEmbedTry awaitSendMessageWithBot
  by_cases h1 : truthy w.CONFIG.mainChannelId = true
  · by_cases h2 : truthy w.CONFIG.mainMessageId = true
    · cases h : sendMessageWithBot o <;> simp [h1, h2]
    · simp [h1, h2]
  · simp [h1]

/-- Whatever the code of the edit failure, the refresh keeps the stored message id, sends a
new message and returns what that send returns: no failure reaches the caller. -/
theorem updateMainEmbed_edit_failure (w : World) (code : Nat) (created : Option String)
    (hch : truthy w.CONFIG.mainChannelId = true) (hid : truthy w.CONFIG.mainMessageId = true) :
    updateMainEmbed w (sendMessageWithBot (SendOutcome.apiError code)) created
      = (w,
         [ Action.send (strOf w.CONFIG.mainChannelId) w.CONFIG.mainMessageId
             (generateMainEmbed w.stockItem).body,
           Action.send (strOf w.CONFIG.mainChannelId) none (generateMainEmbed w.stockItem).body ],
         created) := by
  simp [updateMainEmbed, sendMessageWithBot, hch, hid]

/-- C11 (evaluation at the failing inputs): with the stored message id `555`, an edit that
fails with code 10008 leaves `CONFIG.mainMessageId` at `555` (not cleared) while a new
message is sent; an edit that fails with another code (50013) also sends a new message and
returns it, so nothing is propagated; and the caller then does not store the new id. -/
theorem updateMainEmbed_keeps_stale_id :
    (updateMainEmbed boardWorld (sendMessageWithBot (SendOutcome.apiError 10008))
        (sendMessageWithBot (SendOutcome.message "999")))
      = (boardWorld,
         [ Action.send "100" (some "555") (generateMainEmbed boardWorld.stockItem).body,
           Action.send "100" none (generateMainEmbed boardWorld.stockItem).body ],
         some "999")
    ∧ boardWorld.CONFIG.mainMessageId = some "555"
    ∧ (updateMainEmbed boardWorld (sendMessageWithBot (SendOutcome.apiError 50013))
        (sendMessageWithBot (SendOutcome.message "999")))
      = (boardWorld,
         [ Action.send "100" (some "555") (generateMainEmbed boardWorld.stockItem).body,
           Action.send "100" none (generateMainEmbed boardWorld.stockItem).body ],
         some "999")
    ∧ (refreshAfterUpdate boardWorld (sendMessageWithBot (SendOutcome.apiError 10008))
        (sendMessageWithBot (SendOutcome.message "999"))).1.CONFIG.mainMessageId = some "555" := by
  refine ⟨?_, rfl, ?_, ?_⟩
  · exact updateMainEmbed_edit_failure boardWorld 10008 _ (by decide) (by decide)
  · exact updateMainEmbed_edit_failure boardWorld 50013 _ (by decide) (by decide)
  · decide

/-- With a known approver and an existing item the ticket is created and both notices are
posted: the one with the close button and the one with the confirm button. -/
theorem selectItemToBuy_with_owner (w : World) (ownerId : String) (i : SelectInteraction)
    (threadId : String) (item : StockItem)
    (hitem : findUnique w.stockItem i.selectedItemId = some item) :
    (selectItemToBuy w (some ownerId) i threadId).world = w
    ∧ (selectItemToBuy w (some ownerId) i threadId).actions.any createsThread = true
    ∧ (selectItemToBuy w (some ownerId) i threadId).actions.any (postsButton "close_ticket") = true
    ∧ (selectItemToBuy w (some ownerId) i threadId).actions.any
        (postsButton (confirmCustomId item.id i.userId)) = true := by
  simp [selectItemToBuy, hitem, createsThread, postsButton, closeNotice, confirmNotice]

/-- A selection naming no item is answered with the not-found notice; no thread is created
and nothing is posted. -/
theorem selectItemToBuy_missing_item (w : World) (owner : Option String) (i : SelectInteraction)
    (threadId : String) (hitem : findUnique w.stockItem i.selectedItemId = none) :
    selectItemToBuy w owner i threadId
      = { world := w
          actions :=
            [Action.deferUpdate, Action.followUp "O item selecionado não foi encontrado." true]
          collector := none } := by
  simp [selectItemToBuy, hitem]

/-- C13 (evaluation at the failing input): a selection of the existing item `MANGO` while the
application owner is unknown creates the thread and adds the buyer, then fails on `owner.id`:
the only message is the generic error follow-up, and no message with the `close_ticket`
button is posted. -/
theorem selectItemToBuy_no_owner_no_close_notice :
    findUnique seededWorld.stockItem mangoSelection.selectedItemId = some mangoItem
    ∧ selectItemToBuy seededWorld none mangoSelection "t1"
      = { world := seededWorld
          actions :=
            [ Action.deferUpdate,
              Action.threadCreate "Compra de MANGO - ana" 1440 "Ticket de compra para ana#0",
              Action.threadMembersAdd "42",
              Action.followUp genericError true ]
          collector := none }
    ∧ (selectItemToBuy seededWorld none mangoSelection "t1").actions.any createsThread = true
    ∧ (selectItemToBuy seededWorld none mangoSelection "t1").actions.any
        (postsButton "close_ticket") = false
    ∧ (selectItemToBuy seededWorld (some "1") mangoSelection "t1").actions.any
        (postsButton "close_ticket") = true := by
  decide

/-- What a successful answer of `POST /add-fruit` tells about the run. -/
theorem addFruit_success_inv {w w1 : World} {req : AddRequest} {stock : List StockItem}
    {item : StockItem}
    (h : addFruit w req = (w1, Response.success none (some stock) (some item) none)) :
    ∃ id name, req.id = some id ∧ req.name = some name
      ∧ findUnique w.stockItem (normalizeId id) = none
      ∧ createItem (newItemData id name req) = some item
      ∧ w1 = { w with stockItem := w.stockItem ++ [item] }
      ∧ stock = findManyByName (w.stockItem ++ [item]) := by
  unfold addFruit at h
  split at h
  · simp at h
  · split at h
    · next _ _ id name hreqid hreqname =>
      split at h
      · simp at h
      · next hnone =>
        split at h
        · simp at h
        · next created hcreate =>
          simp only [Prod.mk.injEq, Response.success.injEq, Option.some.injEq, true_and] at h
          obtain ⟨hw, hstock, hitem, -⟩ := h
          subst hitem
          exact ⟨id, name, hreqid, hreqname, hnone, hcreate, hw.symm, hstock.symm⟩
    · simp at h

theorem orElse_fin_ne_zero {q : ℚ} (hq : q ≠ 0) (b : JsNum) : (JsNum.fin q).orElse b = JsNum.fin q := by
  simp [JsNum.orElse, JsNum.truthy, hq]

theorem orElse_nan (b : JsNum) : JsNum.nan.orElse b = b := by
  simp [JsNum.orElse, JsNum.truthy]

theorem orElse_zero (b : JsNum) : (JsNum.fin 0).orElse b = b := by
  simp [JsNum.orElse, JsNum.truthy]

/-- C14: the item stored by a successful Add request has the normalised id, the name in
upper case, the emoji given or the empty string, the price and the quantity given or 0 when
absent or not a number, and as `max` the given max when it is a non-zero number, otherwise
the quantity when that is a non-zero number, otherwise 100. -/
theorem addFruit_stored_item (w w1 : World) (req : AddRequest) (stock : List StockItem)
    (item : StockItem)
    (h : addFruit w req = (w1, Response.success none (some stock) (some item) none)) :
    ∃ id name, req.id = some id ∧ req.name = some name
      ∧ w1.stockItem = w.stockItem ++ [item]
      ∧ item.id = normalizeId id
      ∧ item.name = toUpperCase name
      ∧ item.emoji = req.emoji.getD ""
      ∧ (∀ p, req.price = JsNum.fin p → item.price = p)
      ∧ (req.price = JsNum.nan → item.price = 0)
      ∧ (∀ q, req.quantity = JsNum.fin q → (item.quantity : ℚ) = q)
      ∧ (req.quantity = JsNum.nan → item.quantity = 0)
      ∧ (∀ m, req.max = JsNum.fin m → m ≠ 0 → (item.max : ℚ) = m)
      ∧ (req.max = JsNum.nan ∨ req.max = JsNum.fin 0 →
          ∀ q, req.quantity = JsNum.fin q → q ≠ 0 → (item.max : ℚ) = q)
      ∧ (req.max = JsNum.nan ∨ req.max = JsNum.fin 0 →
          req.quantity = JsNum.nan ∨ req.quantity = JsNum.fin 0 → item.max = 100) := by
  obtain ⟨id, name, hid, hname, -, hcreate, hw, -⟩ := addFruit_success_inv h
  unfold createItem at hcreate
  split at hcreate
  · next p q m hp hq hm =>
    simp only [Option.some.injEq] at hcreate
    subst hcreate
    simp only [newItemData] at hp hq hm ⊢
    have hmaxArg : req.max = JsNum.nan ∨ req.max = JsNum.fin 0 →
        (req.quantity.orElse (JsNum.fin 100)).toInt? = some m := by
      rintro (h0 | h0)
      · rwa [h0, orElse_nan] at hm
      · rwa [h0, orElse_zero] at hm
    refine ⟨id, name, hid, hname, by rw [hw]; rfl, rfl, rfl, ?_, ?_, ?_, ?_, ?_, ?_, ?_, ?_⟩
    · show orStr req.emoji "" = req.emoji.getD ""
      cases he : req.emoji with
      | none => simp [orStr]
      | some e =>
        by_cases hne : e = ""
        · simp [orStr, strTruthy, hne]
        · simp [orStr, strTruthy, hne]
    · intro x hx
      rw [hx] at hp
      by_cases h0 : x = 0
      · rw [h0, orElse_zero] at hp
        rw [h0]
        exact toFinite?_fin hp
      · rw [orElse_fin_ne_zero h0] at hp
        exact toFinite?_fin hp
    · intro hx
      rw [hx, orElse_nan] at hp
      exact toFinite?_fin hp
    · intro x hx
      rw [hx] at hq
      by_cases h0 : x = 0
      · rw [h0, orElse_zero] at hq
        rw [h0]
        exact toInt?_fin_cast hq
      · rw [orElse_fin_ne_zero h0] at hq
        exact toInt?_fin_cast hq
    · intro hx
      rw [hx, orElse_nan] at hq
      have := toInt?_fin_cast hq
      exact_mod_cast this
    · intro x hx h0
      rw [hx, orElse_fin_ne_zero h0] at hm
      exact toInt?_fin_cast hm
    · intro hmax x hx h0
      have hm2 := hmaxArg hmax
      rw [hx, orElse_fin_ne_zero h0] at hm2
      exact toInt?_fin_cast hm2
    · intro hmax hqty
      have hm2 := hmaxArg hmax
      have h100 : (JsNum.fin 100).toInt? = some m := by
        rcases hqty with h0 | h0
        · rwa [h0, orElse_nan] at hm2
        · rwa [h0, orElse_zero] at hm2
      have := toInt?_fin_cast h100
      exact_mod_cast this
  · simp at hcreate

/-- The statement of `addFruit_stored_item` for `acaiRequest` on the seeded state: the name
`Açaí` is stored as `AÇAÍ`, the absent price as 0, and max, sent as 0, takes the quantity 8. -/
theorem addFruit_stored_item_witness :
    ∃ id name, acaiRequest.id = some id ∧ acaiRequest.name = some name
      ∧ ({ seededWorld with stockItem := defaultStock ++ [acaiItem] } : World).stockItem
          = seededWorld.stockItem ++ [acaiItem]
      ∧ acaiItem.id = normalizeId id
      ∧ acaiItem.name = toUpperCase name
      ∧ acaiItem.emoji = acaiRequest.emoji.getD ""
      ∧ (∀ p, acaiRequest.price = JsNum.fin p → acaiItem.price = p)
      ∧ (acaiRequest.price = JsNum.nan → acaiItem.price = 0)
      ∧ (∀ q, acaiRequest.quantity = JsNum.fin q → (acaiItem.quantity : ℚ) = q)
      ∧ (acaiRequest.quantity = JsNum.nan → acaiItem.quantity = 0)
      ∧ (∀ m, acaiRequest.max = JsNum.fin m → m ≠ 0 → (acaiItem.max : ℚ) = m)
      ∧ (acaiRequest.max = JsNum.nan ∨ acaiRequest.max = JsNum.fin 0 →
          ∀ q, acaiRequest.quantity = JsNum.fin q → q ≠ 0 → (acaiItem.max : ℚ) = q)
      ∧ (acaiRequest.max = JsNum.nan ∨ acaiRequest.max = JsNum.fin 0 →
          acaiRequest.quantity = JsNum.nan ∨ acaiRequest.quantity = JsNum.fin 0 →
          acaiItem.max = 100) :=
  addFruit_stored_item seededWorld { seededWorld with stockItem := defaultStock ++ [acaiItem] }
    acaiRequest (findManyByName (defaultStock ++ [acaiItem])) acaiItem (by decide)

theorem applyUpdate_ids {s s1 : List StockItem} {op : String × UpdateData}
    (h : applyUpdate s op = some s1) :
    s1.map (fun it => it.id) = s.map (fun it => it.id) := by
  unfold applyUpdate at h
  cases hw : op.2.write? with
  | none => simp [hw] at h
  | some f =>
    simp only [hw, update] at h
    cases hf : findUnique s op.1 with
    | none => simp [hf] at h
    | some _ =>
      simp only [hf, Option.some.injEq] at h
      rw [← h, List.map_map]
      apply List.map_congr_left
      intro x _
      by_cases hx : x.id = op.1
      · simp [hx, write?_id hw]
      · simp [hx]

theorem applyUpdate_other_rows {s s1 : List StockItem} {op : String × UpdateData} {id0 : String}
    (h : applyUpdate s op = some s1) (hne : op.1 ≠ id0) :
    s1.filter (fun it => decide (it.id = id0)) = s.filter (fun it => decide (it.id = id0)) := by
  unfold applyUpdate at h
  cases hw : op.2.write? with
  | none => simp [hw] at h
  | some f =>
    simp only [hw, update] at h
    cases hf : findUnique s op.1 with
    | none => simp [hf] at h
    | some _ =>
      simp only [hf, Option.some.injEq] at h
      rw [← h]
      clear h hf
      induction s with
      | nil => rfl
      | cons a t ih =>
        by_cases ha : a.id = op.1
        · have h1 : ¬ (f a).id = id0 := by rw [write?_id hw, ha]; exact hne
          have h2 : ¬ a.id = id0 := by rw [ha]; exact hne
          have h3 : ¬ op.1 = id0 := hne
          simp [List.filter_cons, ha, h1, h3, ih]
        · simp [List.filter_cons, ha, ih]

theorem settleAll_ids (ops : List (String × UpdateData)) (stock : List StockItem) :
    (settleAll ops stock).map (fun it => it.id) = stock.map (fun it => it.id) := by
  unfold settleAll
  induction ops generalizing stock with
  | nil => rfl
  | cons op t ih =>
    rw [List.foldl_cons, ih]
    cases h : applyUpdate stock op with
    | none => rfl
    | some s1 => exact applyUpdate_ids h

theorem settleAll_other_rows (ops : List (String × UpdateData)) (stock : List StockItem)
    (id0 : String) (hne : ∀ op ∈ ops, op.1 ≠ id0) :
    (settleAll ops stock).filter (fun it => decide (it.id = id0))
      = stock.filter (fun it => decide (it.id = id0)) := by
  unfold settleAll
  induction ops generalizing stock with
  | nil => rfl
  | cons op t ih =>
    rw [List.foldl_cons, ih _ (fun o ho => hne o (List.mem_cons_of_mem _ ho))]
    cases h : applyUpdate stock op with
    | none => rfl
    | some s1 => exact applyUpdate_other_rows h (hne op (List.mem_cons_self _ _))

/-- The reconciliation neither deletes nor creates an item: the ids of the stock table, row
by row, are the ones before. -/
theorem fetchSelectedMessage_ids (w : World) (fetched : Option (List Embed)) :
    (fetchSelectedMessage w fetched).stockItem.map (fun it => it.id)
      = w.stockItem.map (fun it => it.id) := by
  unfold fetchSelectedMessage
  split
  · rfl
  · split
    · exact settleAll_ids _ _
    · rfl

/-- The rows of an id are left as they were when no field name of the message includes the
name of a local item with that id. -/
theorem fetchSelectedMessage_untouched (w : World) (fetched : Option (List Embed)) (id0 : String)
    (h : ∀ embed rest, fetched = some (embed :: rest) → ∀ f ∈ embed.fields,
      ∀ item ∈ w.stockItem, item.id = id0 → jsIncludes f.name item.name = false) :
    (fetchSelectedMessage w fetched).stockItem.filter (fun it => decide (it.id = id0))
      = w.stockItem.filter (fun it => decide (it.id = id0)) := by
  unfold fetchSelectedMessage
  split
  · rfl
  · split
    · next embed rest =>
      apply settleAll_other_rows
      intro op hop
      simp only [updatePromises, List.mem_filterMap] at hop
      obtain ⟨f, hf, hfu⟩ := hop
      unfold fieldUpdate at hfu
      split at hfu
      · simp at hfu
      · next itemInStock hfind =>
        simp only [] at hfu
        split at hfu
        · simp only [Option.some.injEq] at hfu
          rw [← hfu]
          intro heq
          have hmem := List.mem_of_find?_eq_some hfind
          have hinc := List.find?_some hfind
          rw [h embed rest rfl f hf itemInStock hmem heq] at hinc
          exact absurd hinc (by decide)
        · simp at hfu
    · rfl

/-- C12 (evaluation at the failing input): `CARROT` is in the local stock (quantity 10,
price 1) and no field of the message is its field, yet the field of `MR CARROT`, whose name
includes the text `CARROT`, is matched to it: after the reconciliation `CARROT` has the
quantity 74 and the price 0.40 of `MR CARROT`.  The ids of the table are unchanged. -/
theorem fetchSelectedMessage_overwrites_CARROT :
    findUnique carrotWorld.stockItem "CARROT" = some carrotItem
    ∧ (∀ e ∈ seededBoard, ∀ f ∈ e.fields,
        f ≠ mainEmbedField carrotItem ∧ f.name ≠ (mainEmbedField carrotItem).name)
    ∧ findUnique (fetchSelectedMessage carrotWorld (some seededBoard)).stockItem "CARROT"
        = some { carrotItem with quantity := 74, price := mkRat 2 5 }
    ∧ (fetchSelectedMessage carrotWorld (some seededBoard)).stockItem.map (fun it => it.id)
        = carrotWorld.stockItem.map (fun it => it.id) := by
  decide

/-! ### Decimal text of natural numbers -/

theorem digitChar_spec : ∀ k < 10,
    (Nat.digitChar k).isDigit = true ∧ (Nat.digitChar k).toNat - '0'.toNat = k := by
  decide

theorem digitsVal_append_single (l : List Char) (d : Char) :
    digitsVal (l ++ [d]) = 10 * digitsVal l + (d.toNat - '0'.toNat) := by
  simp [digitsVal, List.foldl_append]

theorem toDigitsCore_spec : ∀ (fuel n : Nat) (ds : List Char), n < fuel →
    ∃ l, Nat.toDigitsCore 10 fuel n ds = l ++ ds ∧ l ≠ []
      ∧ (∀ c ∈ l, c.isDigit = true) ∧ digitsVal l = n := by
  intro fuel
  induction fuel with
  | zero => intro n ds h; exact absurd h (Nat.not_lt_zero _)
  | succ fuel ih =>
    intro n ds hn
    have hd := digitChar_spec (n % 10) (Nat.mod_lt _ (by norm_num))
    unfold Nat.toDigitsCore
    by_cases h0 : n / 10 = 0
    · refine ⟨[Nat.digitChar (n % 10)], by simp [h0], by simp, ?_, ?_⟩
      · intro c hc
        rw [List.mem_singleton] at hc
        rw [hc]; exact hd.1
      · have hlt : n < 10 := by omega
        simp only [digitsVal, List.foldl_cons, List.foldl_nil, Nat.mul_zero, Nat.zero_add]
        rw [hd.2]
        exact Nat.mod_eq_of_lt hlt
    · have hlt : n / 10 < fuel := by omega
      obtain ⟨l, hl, _, hdig, hval⟩ := ih (n / 10) (Nat.digitChar (n % 10) :: ds) hlt
      refine ⟨l ++ [Nat.digitChar (n % 10)], ?_, by simp, ?_, ?_⟩
      · simp only [h0, if_false]
        rw [hl]
        simp
      · intro c hc
        rcases List.mem_append.1 hc with h | h
        · exact hdig c h
        · rw [List.mem_singleton] at h
          rw [h]; exact hd.1
      · rw [digitsVal_append_single, hval, hd.2]
        omega

/-- The decimal text of a natural number: only digits, at least one, with its value. -/
theorem natText_spec (n : Nat) :
    (toString n).toList ≠ [] ∧ (∀ c ∈ (toString n).toList, c.isDigit = true)
      ∧ digitsVal (toString n).toList = n := by
  obtain ⟨l, hl, hne, hdig, hval⟩ := toDigitsCore_spec (n + 1) n [] (Nat.lt_succ_self n)
  have h : (toString n).toList = l := by
    show (Nat.toDigits 10 n) = l
    unfold Nat.toDigits
    rw [hl]
    simp
  rw [h]
  exact ⟨hne, hdig, hval⟩

/-! ### The text of a price -/

theorem ofNat_digit_spec : ∀ j < 10,
    (Char.ofNat (48 + j)).isDigit = true ∧ (Char.ofNat (48 + j)).toNat - '0'.toNat = j := by
  decide

theorem toList_append (a b : String) : (a ++ b).toList = a.toList ++ b.toList :=
  String.data_append a b

/-- The characters of `toFixed2 x`: an optional minus sign, the decimal text of the integer
part of the hundredths, a point, and two digits. -/
theorem toFixed2_toList (x : ℚ) :
    (toFixed2 x).toList
      = (if x < 0 then ['-'] else []) ++ (toString (hundredths x / 100)).toList
        ++ '.' :: [Char.ofNat (48 + hundredths x % 100 / 10),
                   Char.ofNat (48 + hundredths x % 100 % 10)] := by
  have h2 := (twoDigits_digits (hundredths x % 100) (Nat.mod_lt _ (by norm_num))).1
  unfold toFixed2
  simp only []
  rw [show (200 * x.num.natAbs + x.den) / (2 * x.den) = hundredths x from rfl, h2]
  simp only [toList_append]
  by_cases hneg : x < 0
  · simp [hneg]
  · simp [hneg]

/-- A price of `k` hundredths prints `k` hundredths. -/
theorem hundredths_of_div (k : Nat) : hundredths ((k : ℚ) / 100) = k := by
  set x : ℚ := (k : ℚ) / 100 with hx
  have hxnn : 0 ≤ x := by positivity
  have hnum : 0 ≤ x.num := Rat.num_nonneg.2 hxnn
  have hden : 0 < x.den := x.den_pos
  have hq : (x.num : ℚ) * 100 = (k : ℚ) * (x.den : ℚ) := by
    have h1 : x * (x.den : ℚ) = (x.num : ℚ) := Rat.mul_den_eq_num x
    rw [← h1, hx]
    ring
  have hz : x.num * 100 = (k : Int) * (x.den : Int) := by exact_mod_cast hq
  have hnat : x.num.natAbs * 100 = k * x.den := by
    have h4 : ((x.num.natAbs * 100 : Nat) : Int) = ((k * x.den : Nat) : Int) := by
      push_cast
      rw [abs_of_nonneg hnum]
      exact hz
    exact_mod_cast h4
  unfold hundredths
  have h5 : 200 * x.num.natAbs + x.den = 2 * x.den * k + x.den := by
    have : 200 * x.num.natAbs = 2 * (x.num.natAbs * 100) := by ring
    rw [this, hnat]
    ring
  rw [h5, Nat.mul_add_div (by omega : 0 < 2 * x.den)]
  have h6 : x.den / (2 * x.den) = 0 := Nat.div_eq_of_lt (by omega)
  rw [h6]
  rfl

/-! ### Characters of the rendered field -/

theorem digit_mem {c : Char} (h : c.isDigit = true) : c ∈ "0123456789".toList := by
  have h1 : 48 ≤ c.toNat ∧ c.toNat ≤ 57 := by
    simp only [Char.isDigit, Bool.and_eq_true, decide_eq_true_eq] at h
    exact ⟨h.1, h.2⟩
  have h2 : c = Char.ofNat c.toNat := (Char.ofNat_toNat c).symm
  obtain ⟨hlo, hhi⟩ := h1
  generalize c.toNat = n at h2 hlo hhi
  subst h2
  interval_cases n <;> decide

/-- What the proofs below use about a decimal digit. -/
theorem digit_props : ∀ c ∈ "0123456789".toList,
    c ≠ '*' ∧ canonChar 'E' ≠ canonChar c ∧ canonChar 'P' ≠ canonChar c ∧ isJsSpace c = false
      ∧ c ≠ '-' ∧ c ≠ '+' ∧ c ≠ ',' ∧ c ≠ 'I' ∧ isPriceChar c = true ∧ c.toUpper ≠ 'E'
      ∧ c.isDigit = true := by
  decide

/-- The upper case of a decimal digit is the digit, which is not the letter `E`. -/
theorem digit_upper : ∀ c ∈ "0123456789".toList, upperChar c = [c] ∧ c ≠ 'E' := by
  decide

theorem stripStars_stars (r : List Char) : stripStars ('*' :: '*' :: r) = stripStars r := by
  simp [stripStars]

theorem stripStars_plain_append (l rest : List Char) (h : ∀ c ∈ l, c ≠ '*') :
    stripStars (l ++ rest) = l ++ stripStars rest := by
  induction l with
  | nil => rfl
  | cons c l ih =>
    have hc : c ≠ '*' := h c (List.mem_cons_self _ _)
    have ih2 := ih (fun x hx => h x (List.mem_cons_of_mem _ hx))
    rw [List.cons_append, List.cons_append, ← ih2]
    cases hl : l ++ rest with
    | nil => simp [stripStars]
    | cons d r => simp [stripStars, hc]

theorem searchFirst_skip (attempt : List Char → Option (List Char)) (l rest : List Char)
    (h : ∀ c ∈ l, ∀ t, attempt (c :: t) = none) :
    searchFirst attempt (l ++ rest) = searchFirst attempt rest := by
  induction l with
  | nil => rfl
  | cons c l ih =>
    rw [List.cons_append, searchFirst, h c (List.mem_cons_self _ _)]
    exact ih (fun x hx => h x (List.mem_cons_of_mem _ hx))

theorem searchFirst_hit (attempt : List Char → Option (List Char)) (c : Char) (t g : List Char)
    (h : attempt (c :: t) = some g) : searchFirst attempt (c :: t) = some g := by
  rw [searchFirst, h]

theorem qtyAt_none (c : Char) (t : List Char) (h : canonChar 'E' ≠ canonChar c) :
    qtyAt (c :: t) = none := by
  have hl : "Estoque:".toList = 'E' :: "stoque:".toList := by decide
  simp [qtyAt, hl, matchLiteral, h]

theorem takeWhile_append_stop (p : Char → Bool) (l : List Char) (d : Char) (r : List Char)
    (hl : ∀ c ∈ l, p c = true) (hd : p d = false) : (l ++ d :: r).takeWhile p = l := by
  induction l with
  | nil => simp [List.takeWhile, hd]
  | cons c l ih =>
    simp [List.takeWhile, hl c (List.mem_cons_self _ _),
      ih (fun x hx => hl x (List.mem_cons_of_mem _ hx))]

theorem dropWhile_append_stop (p : Char → Bool) (l : List Char) (d : Char) (r : List Char)
    (hl : ∀ c ∈ l, p c = true) (hd : p d = false) : (l ++ d :: r).dropWhile p = d :: r := by
  induction l with
  | nil => simp [List.dropWhile, hd]
  | cons c l ih =>
    simp [List.dropWhile, hl c (List.mem_cons_self _ _),
      ih (fun x hx => hl x (List.mem_cons_of_mem _ hx))]

theorem takeWhile_all (p : Char → Bool) (l : List Char) (hl : ∀ c ∈ l, p c = true) :
    l.takeWhile p = l := by
  induction l with
  | nil => rfl
  | cons c l ih =>
    simp [List.takeWhile, hl c (List.mem_cons_self _ _),
      ih (fun x hx => hl x (List.mem_cons_of_mem _ hx))]

theorem dropWhile_all (p : Char → Bool) (l : List Char) (hl : ∀ c ∈ l, p c = true) :
    l.dropWhile p = [] := by
  induction l with
  | nil => rfl
  | cons c l ih =>
    simp [List.dropWhile, hl c (List.mem_cons_self _ _),
      ih (fun x hx => hl x (List.mem_cons_of_mem _ hx))]

theorem takeSign_plain (c : Char) (r : List Char) (h1 : c ≠ '-') (h2 : c ≠ '+') :
    takeSign (c :: r) = (false, c :: r) := by
  unfold takeSign
  split
  · next heq => simp at heq; exact absurd heq.1 h1
  · next heq => simp at heq; exact absurd heq.1 h2
  · rfl

theorem stripStars_cons_plain (c : Char) (r : List Char) (hc : c ≠ '*') :
    stripStars (c :: r) = c :: stripStars r :=
  stripStars_plain_append [c] r (fun x hx => by rw [List.mem_singleton] at hx; rw [hx]; exact hc)

theorem stripStars_plain (l : List Char) (h : ∀ c ∈ l, c ≠ '*') : stripStars l = l := by
  have := stripStars_plain_append l [] h
  simpa [stripStars] using this

/-- The value of a rendered field after `**` is removed. -/
theorem stripStars_value (F Q : List Char) (hF : ∀ c ∈ F, c ≠ '*') (hQ : ∀ c ∈ Q, c ≠ '*') :
    stripStars ("**Preço:** R$".toList ++ F ++ "\n**Estoque:** ".toList ++ Q)
      = "Preço: R$".toList ++ (F ++ ('\n' :: ("Estoque: ".toList ++ Q))) := by
  have e1 : "**Preço:** R$".toList
      = '*' :: '*' :: ("Preço:".toList ++ '*' :: '*' :: " R$".toList) := by decide
  have e2 : "\n**Estoque:** ".toList
      = '\n' :: '*' :: '*' :: ("Estoque:".toList ++ '*' :: '*' :: [' ']) := by decide
  have e3 : "Preço: R$".toList = "Preço:".toList ++ " R$".toList := by decide
  have e4 : "Estoque: ".toList = "Estoque:".toList ++ [' '] := by decide
  have p1 : ∀ c ∈ "Preço:".toList, c ≠ '*' := by decide
  have p2 : ∀ c ∈ " R$".toList, c ≠ '*' := by decide
  have p3 : ∀ c ∈ "Estoque:".toList, c ≠ '*' := by decide
  rw [e1, e2, e3, e4]
  simp only [List.append_assoc, List.cons_append, List.nil_append]
  rw [stripStars_stars, stripStars_plain_append _ _ p1, stripStars_stars,
    stripStars_plain_append _ _ p2, stripStars_plain_append _ _ hF,
    stripStars_cons_plain _ _ (by decide), stripStars_stars, stripStars_plain_append _ _ p3,
    stripStars_stars, stripStars_cons_plain _ _ (by decide), stripStars_plain Q hQ]

theorem matchLiteral_self (pat rest : List Char) : matchLiteral pat (pat ++ rest) = some rest := by
  induction pat with
  | nil => cases rest <;> rfl
  | cons p ps ih => simp [matchLiteral, ih]

theorem qtyAt_e_cedilla (t : List Char) : qtyAt ('e' :: 'ç' :: t) = none := by
  have hl : "Estoque:".toList = 'E' :: 's' :: "toque:".toList := by decide
  have h1 : canonChar 'E' = canonChar 'e' := by decide
  have h2 : canonChar 's' ≠ canonChar 'ç' := by decide
  simp [qtyAt, hl, matchLiteral, h1, h2]

/-- The quantity pattern finds nothing before the text `Estoque:` of a cleaned value. -/
theorem search_qty (F Q g : List Char) (hF : ∀ c ∈ F, canonChar 'E' ≠ canonChar c)
    (hq : qtyAt ("Estoque: ".toList ++ Q) = some g) :
    searchFirst qtyAt ("Preço: R$".toList ++ (F ++ ('\n' :: ("Estoque: ".toList ++ Q))))
      = some g := by
  have e3 : "Preço: R$".toList = ['P', 'r'] ++ ('e' :: 'ç' :: ['o', ':', ' ', 'R', '$']) := by
    decide
  have e4 : "Estoque: ".toList = 'E' :: "stoque: ".toList := by decide
  have s1 : ∀ c ∈ ['P', 'r'], ∀ t, qtyAt (c :: t) = none := by
    intro c hc t
    apply qtyAt_none
    revert c
    decide
  have s2 : ∀ c ∈ ['o', ':', ' ', 'R', '$'], ∀ t, qtyAt (c :: t) = none := by
    intro c hc t
    apply qtyAt_none
    revert c
    decide
  have s3 : ∀ c ∈ F, ∀ t, qtyAt (c :: t) = none := fun c hc t => qtyAt_none c t (hF c hc)
  have s4 : ∀ c ∈ ['\n'], ∀ t, qtyAt (c :: t) = none := by
    intro c hc t
    apply qtyAt_none
    revert c
    decide
  rw [e3, List.append_assoc, searchFirst_skip _ _ _ s1]
  simp only [List.cons_append, List.nil_append]
  rw [searchFirst, qtyAt_e_cedilla]
  simp only []
  rw [searchFirst, qtyAt_none 'ç' _ (by decide)]
  simp only []
  rw [show ∀ X : List Char, 'o' :: ':' :: ' ' :: 'R' :: '$' :: X
      = ['o', ':', ' ', 'R', '$'] ++ X from fun _ => rfl, searchFirst_skip _ _ _ s2,
    searchFirst_skip _ _ _ s3,
    show ∀ X : List Char, '\n' :: X = ['\n'] ++ X from fun _ => rfl, searchFirst_skip _ _ _ s4]
  rw [e4] at hq ⊢
  exact searchFirst_hit _ _ _ _ hq

theorem qtyAt_digits (D : List Char) (hne : D ≠ []) (hd : ∀ c ∈ D, c.isDigit = true) :
    qtyAt ("Estoque: ".toList ++ D) = some D := by
  have e4 : "Estoque: ".toList = "Estoque:".toList ++ [' '] := by decide
  cases D with
  | nil => exact absurd rfl hne
  | cons d D1 =>
    have hsp : isJsSpace d = false :=
      (digit_props d (digit_mem (hd d (List.mem_cons_self _ _)))).2.2.2.1
    have hsp1 : isJsSpace ' ' = true := by decide
    have hdd : d.isDigit = true := hd d (List.mem_cons_self _ _)
    have htw := takeWhile_all Char.isDigit D1 (fun c hc => hd c (List.mem_cons_of_mem _ hc))
    unfold qtyAt
    rw [e4, List.append_assoc, matchLiteral_self]
    simp [List.dropWhile_cons, List.takeWhile_cons, hsp1, hsp, hdd, htw]

theorem qtyAt_esgotado :
    qtyAt ("Estoque: ".toList ++ "ESGOTADO".toList) = some "ESGOTADO".toList := by
  decide

/-- The price pattern matches at the start of a cleaned value and captures the price text. -/
theorem search_price (F X : List Char) (hne : F ≠ []) (hF : ∀ c ∈ F, isPriceChar c = true) :
    searchFirst priceAt ("Preço: R$".toList ++ (F ++ ('\n' :: X))) = some F := by
  have e3 : "Preço: R$".toList = "Preço:".toList ++ (' ' :: "R$".toList) := by decide
  have e5 : "Preço:".toList = 'P' :: "reço:".toList := by decide
  have hsp1 : isJsSpace ' ' = true := by decide
  have hsp2 : isJsSpace 'R' = false := by decide
  have e6 : "R$".toList = 'R' :: ['$'] := by decide
  have hstop : isPriceChar '\n' = false := by decide
  have hat : priceAt ("Preço:".toList ++ (' ' :: "R$".toList) ++ (F ++ ('\n' :: X))) = some F := by
    unfold priceAt
    rw [List.append_assoc, matchLiteral_self]
    have hdrop : List.dropWhile isJsSpace ((' ' :: "R$".toList) ++ (F ++ '\n' :: X))
        = "R$".toList ++ (F ++ '\n' :: X) := by
      rw [e6]
      simp [List.dropWhile, hsp1, hsp2]
    simp only [hdrop, matchLiteral_self, takeWhile_append_stop isPriceChar F '\n' X hF hstop]
    simp [hne]
  rw [e3]
  rw [e5] at hat ⊢
  simp only [List.cons_append] at hat ⊢
  exact searchFirst_hit _ _ _ _ hat

theorem parseInt_digits (D : List Char) (hne : D ≠ []) (hd : ∀ c ∈ D, c.isDigit = true) :
    parseInt (String.mk D) = JsNum.fin (digitsVal D : ℚ) := by
  cases D with
  | nil => exact absurd rfl hne
  | cons d D1 =>
    have hp := digit_props d (digit_mem (hd d (List.mem_cons_self _ _)))
    have hsp : isJsSpace d = false := hp.2.2.2.1
    have hsign := takeSign_plain d D1 hp.2.2.2.2.1 hp.2.2.2.2.2.1
    have hdd : d.isDigit = true := hd d (List.mem_cons_self _ _)
    have htw := takeWhile_all Char.isDigit D1 (fun c hc => hd c (List.mem_cons_of_mem _ hc))
    unfold parseInt
    simp [String.toList, List.dropWhile_cons, List.takeWhile_cons, hsp, hsign, hdd, htw]

theorem toUpperCase_digits_ne (D : List Char) (hne : D ≠ []) (hd : ∀ c ∈ D, c.isDigit = true) :
    toUpperCase (String.mk D) ≠ "ESGOTADO" := by
  cases D with
  | nil => exact absurd rfl hne
  | cons d D1 =>
    have hp := digit_upper d (digit_mem (hd d (List.mem_cons_self _ _)))
    intro h
    have h2 := congrArg String.data h
    have e : ("ESGOTADO" : String).data = 'E' :: "SGOTADO".toList := by decide
    simp only [toUpperCase, String.toList, List.flatMap_cons, hp.1, e, List.singleton_append,
      List.cons.injEq] at h2
    exact hp.2 h2.1

theorem parseFloat_fixed (I : List Char) (d1 d2 : Char) (hne : I ≠ [])
    (hI : ∀ c ∈ I, c.isDigit = true) (h1 : d1.isDigit = true) (h2 : d2.isDigit = true) :
    parseFloat (String.mk (I ++ '.' :: [d1, d2]))
      = JsNum.fin (mkRat (digitsVal (I ++ [d1, d2])) 100) := by
  cases I with
  | nil => exact absurd rfl hne
  | cons c I1 =>
    have hp := digit_props c (digit_mem (hI c (List.mem_cons_self _ _)))
    have hsp : isJsSpace c = false := hp.2.2.2.1
    have hsign := takeSign_plain c (I1 ++ '.' :: [d1, d2]) hp.2.2.2.2.1 hp.2.2.2.2.2.1
    have hinf : "Infinity".toList.isPrefixOf (c :: (I1 ++ '.' :: [d1, d2])) = false := by
      have e : "Infinity".toList = 'I' :: "nfinity".toList := by decide
      have hne2 : ¬ ('I' = c) := fun h => hp.2.2.2.2.2.2.2.1 h.symm
      simp [e, List.isPrefixOf, hne2]
    have hdot : Char.isDigit '.' = false := by decide
    have hip := takeWhile_append_stop Char.isDigit (c :: I1) '.' [d1, d2] hI hdot
    have hr1 := dropWhile_append_stop Char.isDigit (c :: I1) '.' [d1, d2] hI hdot
    have hfp : List.takeWhile Char.isDigit [d1, d2] = [d1, d2] :=
      takeWhile_all _ _ (by
        intro x hx
        simp only [List.mem_cons, List.mem_singleton, List.not_mem_nil, or_false] at hx
        rcases hx with rfl | rfl
        · exact h1
        · exact h2)
    have hr3 : List.dropWhile Char.isDigit [d1, d2] = [] :=
      dropWhile_all _ _ (by
        intro x hx
        simp only [List.mem_cons, List.mem_singleton, List.not_mem_nil, or_false] at hx
        rcases hx with rfl | rfl
        · exact h1
        · exact h2)
    rw [List.cons_append] at hip hr1
    have hs : (String.mk (c :: I1 ++ '.' :: [d1, d2])).toList = c :: (I1 ++ '.' :: [d1, d2]) := rfl
    have hdw : List.dropWhile isJsSpace (c :: (I1 ++ '.' :: [d1, d2]))
        = c :: (I1 ++ '.' :: [d1, d2]) := by
      simp [List.dropWhile, hsp]
    unfold parseFloat
    rw [hs, hdw, hsign]
    simp only [hinf, hip, hr1, hfp, hr3, exponentPart]
    simp

theorem fixed_chars (x : ℚ) :
    ∀ c ∈ (toFixed2 x).toList, c = '-' ∨ c = '.' ∨ c.isDigit = true := by
  intro c hc
  rw [toFixed2_toList] at hc
  have hd1 := (ofNat_digit_spec (hundredths x % 100 / 10) (by omega)).1
  have hd2 := (ofNat_digit_spec (hundredths x % 100 % 10) (by omega)).1
  simp only [List.mem_append, List.mem_cons, List.mem_singleton, List.not_mem_nil, or_false] at hc
  rcases hc with (hs | hi) | hdot | h1 | h2
  · left
    split at hs
    · simpa using hs
    · simp at hs
  · right; right; exact (natText_spec _).2.1 c hi
  · right; left; exact hdot
  · right; right; rw [h1]; exact hd1
  · right; right; rw [h2]; exact hd2

/-- The quantity text of a rendered field. -/
theorem qtyText_cases (q : Int) :
    (0 < q ∧ (if q > 0 then toString q else "ESGOTADO") = toString q.toNat)
    ∨ (q ≤ 0 ∧ (if q > 0 then toString q else "ESGOTADO") = "ESGOTADO") := by
  by_cases h : 0 < q
  · left
    have hq : q = ((q.toNat : Nat) : Int) := (Int.toNat_of_nonneg h.le).symm
    have hs : toString q = toString q.toNat := by
      conv_lhs => rw [hq]
      rfl
    exact ⟨h, by simp [h, hs]⟩
  · right
    exact ⟨by omega, by simp [h]⟩

/-! ### Rendering a field and parsing it back -/

theorem fixed_chars_props (x : ℚ) :
    ∀ c ∈ (toFixed2 x).toList, c ≠ '*' ∧ canonChar 'E' ≠ canonChar c := by
  intro c hc
  rcases fixed_chars x c hc with h | h | h
  · rw [h]; decide
  · rw [h]; decide
  · have hp := digit_props c (digit_mem h)
    exact ⟨hp.1, hp.2.1⟩

theorem qtyText_plain (q : Int) :
    ∀ c ∈ (if q > 0 then toString q else "ESGOTADO").toList, c ≠ '*' := by
  rcases qtyText_cases q with ⟨_, h⟩ | ⟨_, h⟩
  · rw [h]
    intro c hc
    exact (digit_props c (digit_mem ((natText_spec _).2.1 c hc))).1
  · rw [h]
    decide

/-- The text the reconciliation works on, for the value `generateMainEmbed` renders. -/
theorem cleaned_value (item : StockItem) :
    stripStars (mainEmbedField item).value.toList
      = "Preço: R$".toList ++ ((toFixed2 item.price).toList
          ++ ('\n' :: ("Estoque: ".toList
            ++ (if item.quantity > 0 then toString item.quantity else "ESGOTADO").toList))) := by
  have hv : (mainEmbedField item).value.toList
      = "**Preço:** R$".toList ++ (toFixed2 item.price).toList ++ "\n**Estoque:** ".toList
        ++ (if item.quantity > 0 then toString item.quantity else "ESGOTADO").toList := by
    simp only [mainEmbedField, toList_append]
  rw [hv]
  exact stripStars_value _ _ (fun c hc => (fixed_chars_props item.price c hc).1)
    (qtyText_plain item.quantity)

/-- The quantity parsed back from a rendered field: the quantity when it is positive, and 0
(from `ESGOTADO`) otherwise. -/
theorem parse_rendered_quantity (item : StockItem) :
    (parseFieldValue (mainEmbedField item).value).quantity
      = some (if item.quantity > 0 then JsNum.fin item.quantity else JsNum.fin 0) := by
  unfold parseFieldValue
  simp only [cleaned_value]
  have hF : ∀ c ∈ (toFixed2 item.price).toList, canonChar 'E' ≠ canonChar c :=
    fun c hc => (fixed_chars_props item.price c hc).2
  rcases qtyText_cases item.quantity with ⟨hpos, h⟩ | ⟨hle, h⟩
  · obtain ⟨hne, hdig, hval⟩ := natText_spec item.quantity.toNat
    rw [h, search_qty _ _ _ hF (qtyAt_digits _ hne hdig)]
    have hup := toUpperCase_digits_ne _ hne hdig
    have hmk : String.mk (toString item.quantity.toNat).toList = toString item.quantity.toNat := rfl
    have hpi := parseInt_digits _ hne hdig
    rw [hmk] at hup hpi
    simp only [Option.map_some', hmk, hup, if_false, hpi, hval, hpos, if_true]
    have hq : ((item.quantity.toNat : Nat) : ℚ) = ((item.quantity : Int) : ℚ) := by
      have : ((item.quantity.toNat : Nat) : Int) = item.quantity := Int.toNat_of_nonneg hpos.le
      exact_mod_cast congrArg (fun z : Int => (z : ℚ)) this
    rw [hq]
  · rw [h, search_qty _ _ _ hF qtyAt_esgotado]
    have hnot : ¬ item.quantity > 0 := by omega
    have hup : toUpperCase (String.mk "ESGOTADO".toList) = "ESGOTADO" := by decide
    simp only [Option.map_some', hup, if_true, hnot, if_false]

/-- The price parsed back from a rendered field, for a price of `k` hundredths. -/
theorem parse_rendered_price (item : StockItem) (k : Nat) (hp : item.price = (k : ℚ) / 100) :
    (parseFieldValue (mainEmbedField item).value).price = some (JsNum.fin item.price) := by
  unfold parseFieldValue
  simp only [cleaned_value]
  have hk : hundredths item.price = k := by rw [hp]; exact hundredths_of_div k
  have hnn : ¬ item.price < 0 := by
    rw [hp]
    have : (0 : ℚ) ≤ (k : ℚ) / 100 := by positivity
    exact not_lt.2 this
  obtain ⟨hne, hdig, hval⟩ := natText_spec (k / 100)
  have hd1 := ofNat_digit_spec (k % 100 / 10) (by omega)
  have hd2 := ofNat_digit_spec (k % 100 % 10) (by omega)
  have hF : (toFixed2 item.price).toList
      = (toString (k / 100)).toList
        ++ '.' :: [Char.ofNat (48 + k % 100 / 10), Char.ofNat (48 + k % 100 % 10)] := by
    rw [toFixed2_toList, hk]
    simp [hnn]
  have hFne : (toFixed2 item.price).toList ≠ [] := by
    rw [hF]; simp
  have hFchars : ∀ c ∈ (toFixed2 item.price).toList, c = '.' ∨ c.isDigit = true := by
    intro c hc
    rw [hF] at hc
    simp only [List.mem_append, List.mem_cons, List.mem_singleton, List.not_mem_nil,
      or_false] at hc
    rcases hc with hc | hc | hc | hc
    · exact Or.inr (hdig _ hc)
    · exact Or.inl hc
    · rw [hc]; exact Or.inr hd1.1
    · rw [hc]; exact Or.inr hd2.1
  have hFprice : ∀ c ∈ (toFixed2 item.price).toList, isPriceChar c = true := by
    intro c hc
    rcases hFchars c hc with h | h
    · rw [h]; decide
    · exact (digit_props c (digit_mem h)).2.2.2.2.2.2.2.2.1
  have hnocomma : replaceFirstComma (toFixed2 item.price).toList = (toFixed2 item.price).toList := by
    have hall : ∀ l : List Char, (∀ c ∈ l, c ≠ ',') → replaceFirstComma l = l := by
      intro l
      induction l with
      | nil => intro _; rfl
      | cons a t ih =>
        intro h
        simp [replaceFirstComma, h a (List.mem_cons_self _ _),
          ih (fun c hc => h c (List.mem_cons_of_mem _ hc))]
    apply hall
    intro c hc
    rcases hFchars c hc with h | h
    · rw [h]; decide
    · exact (digit_props c (digit_mem h)).2.2.2.2.2.2.1
  rw [search_price _ _ hFne hFprice]
  simp only [Option.map_some', hnocomma]
  rw [hF, parseFloat_fixed _ _ _ hne hdig hd1.1 hd2.1]
  have hv : digitsVal ((toString (k / 100)).toList
      ++ [Char.ofNat (48 + k % 100 / 10), Char.ofNat (48 + k % 100 % 10)]) = k := by
    have e : (toString (k / 100)).toList
        ++ [Char.ofNat (48 + k % 100 / 10), Char.ofNat (48 + k % 100 % 10)]
        = ((toString (k / 100)).toList ++ [Char.ofNat (48 + k % 100 / 10)])
          ++ [Char.ofNat (48 + k % 100 % 10)] := by simp
    rw [e, digitsVal_append_single, digitsVal_append_single, hval, hd1.2, hd2.2]
    omega
  rw [hv, hp]
  congr 1
  rw [Rat.mkRat_eq_div]
  push_cast
  rfl

/-- C15: for an item with quantity `q ≥ 0` and a non-negative price with at most two decimals
(`k` hundredths), the reconciliation parser applied to the field value that
`generateMainEmbed` renders gives back the quantity `q` (0, read from `ESGOTADO`, when
`q = 0`) and the price; for an item with a negative quantity the parsed quantity is 0, which
is not `q`. -/
theorem render_parse_roundtrip (item : StockItem) :
    (0 ≤ item.quantity → ∀ k : Nat, item.price = (k : ℚ) / 100 →
        parseFieldValue (mainEmbedField item).value
          = { quantity := some (JsNum.fin item.quantity), price := some (JsNum.fin item.price) })
    ∧ (item.quantity < 0 →
        (parseFieldValue (mainEmbedField item).value).quantity = some (JsNum.fin 0)
        ∧ JsNum.fin 0 ≠ JsNum.fin item.quantity) := by
  have hq := parse_rendered_quantity item
  constructor
  · intro hnn k hk
    have hp := parse_rendered_price item k hk
    have hqty : (parseFieldValue (mainEmbedField item).value).quantity
        = some (JsNum.fin item.quantity) := by
      rw [hq]
      by_cases hpos : item.quantity > 0
      · simp [hpos]
      · have h0 : item.quantity = 0 := by omega
        simp [h0]
    cases hv : parseFieldValue (mainEmbedField item).value with
    | mk qv pv =>
      rw [hv] at hp hqty
      simp only at hp hqty
      rw [hp, hqty]
  · intro hneg
    have hnot : ¬ item.quantity > 0 := by omega
    refine ⟨by rw [hq]; simp [hnot], ?_⟩
    intro h
    simp only [JsNum.fin.injEq] at h
    have h2 : (item.quantity : ℚ) < 0 := by exact_mod_cast hneg
    rw [← h] at h2
    exact lt_irrefl _ h2

/-- The statement of `render_parse_roundtrip` for the seeded `MANGO` (260 in stock, price
0.70) and for the same item with the quantity -3. -/
theorem render_parse_roundtrip_witness :
    parseFieldValue (mainEmbedField mangoItem).value
      = { quantity := some (JsNum.fin mangoItem.quantity),
          price := some (JsNum.fin mangoItem.price) }
    ∧ (parseFieldValue (mainEmbedField oversoldItem).value).quantity = some (JsNum.fin 0)
    ∧ JsNum.fin 0 ≠ JsNum.fin oversoldItem.quantity :=
  ⟨(render_parse_roundtrip mangoItem).1 (by decide) 70
      (by simp only [mangoItem, Rat.mkRat_eq_div]; norm_num),
   (render_parse_roundtrip oversoldItem).2 (by decide)⟩

/-- The upper case of letters outside ASCII, as `toUpperCase` of JavaScript gives it: one
character for `ç` and `í`, two for `ß` and the ligature `ﬁ`. -/
theorem toUpperCase_outside_ascii :
    toUpperCase "açaí" = "AÇAÍ"
    ∧ toUpperCase "straße ﬁ" = "STRASSE FI"
    ∧ normalizeId "açaí berry" = "AÇAÍ_BERRY"
    ∧ normalizeId " mr \t carrot" = "_MR_CARROT" := by
  decide

/-- The Add request `acaiRequest` on the seeded state stores `acaiItem`, which comes first in
the answered list; the same request sent again, or with its id written `AÇAÍ  berry`, is then
answered 400 `ID já existe`. -/
theorem addFruit_acaiRequest :
    addFruit seededWorld acaiRequest
      = ({ seededWorld with stockItem := defaultStock ++ [acaiItem] },
          Response.success none
            (some (acaiItem :: findManyByName defaultStock)) (some acaiItem) none)
    ∧ addFruit { seededWorld with stockItem := defaultStock ++ [acaiItem] } acaiRequest
      = ({ seededWorld with stockItem := defaultStock ++ [acaiItem] },
          Response.error 400 "ID já existe")
    ∧ addFruit { seededWorld with stockItem := defaultStock ++ [acaiItem] }
        { acaiRequest with id := some "AÇAÍ  berry" }
      = ({ seededWorld with stockItem := defaultStock ++ [acaiItem] },
          Response.error 400 "ID já existe") := by
  decide

end Storefront
